import Mathlib

/-!
Verification development for the snake-game simulation core.

Shallow embedding of the tick-driven engine from the repository:
the `GameScreen` tick function and its helpers, the bonus registry
and configurations from `src/types/bonus.ts`, and the bonus-timer
expiry step.  Randomness (`Math.random()` draws) is made explicit:
every call site receives its draws as parameters (rolls in `[0,1)`
as rationals, raw grid-cell draws as a stream of positions), and the
rejection-sampling loop `getRandomPosition` is given fuel, returning
`none` when the draw stream never leaves the excluded set (the
source would loop forever there).  Presentation-only configuration
fields (colors, icons, sounds, vibration patterns) and fire-and-forget
side effects (sound, vibration, high-score persistence) are omitted:
the engine never branches on them when computing the next state.
-/

namespace SnakeGame

/-- Integer grid coordinates, `Position` from `src/constants.ts`. -/
structure Position where
  x : ℤ
  y : ℤ
deriving DecidableEq, Repr

/-- The four movement directions, `Direction` from `src/constants.ts`. -/
inductive Direction where
  | UP
  | DOWN
  | LEFT
  | RIGHT
deriving DecidableEq, Repr

/-- The `DIRECTIONS` unit-vector table from `src/constants.ts`. -/
def DIRECTIONS : Direction → Position
  | .UP => ⟨0, -1⟩
  | .DOWN => ⟨0, 1⟩
  | .LEFT => ⟨-1, 0⟩
  | .RIGHT => ⟨1, 0⟩

/-- Special-effect kinds, `BonusEffectType` from `src/types/bonus.ts`. -/
inductive BonusEffectType where
  | none
  | shrink
  | speedBoost
  | slowMotion
  | invincible
deriving DecidableEq, Repr

/-- `BonusEffect` from `src/types/bonus.ts` (`duration` is never read by the engine). -/
structure BonusEffect where
  type : BonusEffectType
  value : Option ℤ := Option.none
deriving DecidableEq, Repr

/-- `BonusConfig` from `src/types/bonus.ts`, restricted to the fields the
engine reads when computing state (visual/audio/haptic descriptors are
opaque pass-through data and are omitted). -/
structure BonusConfig where
  type : String
  minPoints : ℤ
  maxPoints : ℤ
  lifetime : ℤ
  minSpawnAfterEggs : ℤ
  maxSpawnAfterEggs : ℤ
  minRespawnAfterEggs : ℤ
  maxRespawnAfterEggs : ℤ
  spawnChance : ℚ
  maxInstances : ℤ
  priority : ℤ
  growsSnake : Bool
  effect : BonusEffect
deriving DecidableEq, Repr

/-- `REGULAR_EGG_CONFIG` from `src/types/bonus.ts`. -/
def REGULAR_EGG_CONFIG : BonusConfig :=
  { type := "regular-egg"
    minPoints := 1
    maxPoints := 1
    lifetime := 0
    minSpawnAfterEggs := 0
    maxSpawnAfterEggs := 0
    minRespawnAfterEggs := 0
    maxRespawnAfterEggs := 0
    spawnChance := 1
    maxInstances := 1
    priority := 100
    growsSnake := true
    effect := ⟨.none, Option.none⟩ }

/-- `DRAGON_EGG_CONFIG` from `src/types/bonus.ts`. -/
def DRAGON_EGG_CONFIG : BonusConfig :=
  { type := "dragon-egg"
    minPoints := 10
    maxPoints := 15
    lifetime := 20000
    minSpawnAfterEggs := 5
    maxSpawnAfterEggs := 15
    minRespawnAfterEggs := 5
    maxRespawnAfterEggs := 10
    spawnChance := 1
    maxInstances := 1
    priority := 50
    growsSnake := true
    effect := ⟨.none, Option.none⟩ }

/-- `SHRINK_EGG_CONFIG` from `src/types/bonus.ts` (`0.8 = mkRat 4 5`;
the `mkRat` form keeps the literal kernel-computable). -/
def SHRINK_EGG_CONFIG : BonusConfig :=
  { type := "shrink-egg"
    minPoints := 3
    maxPoints := 5
    lifetime := 15000
    minSpawnAfterEggs := 10
    maxSpawnAfterEggs := 15
    minRespawnAfterEggs := 10
    maxRespawnAfterEggs := 15
    spawnChance := mkRat 4 5
    maxInstances := 1
    priority := 45
    growsSnake := false
    effect := ⟨.shrink, Option.some 5⟩ }

/-- `GOLDEN_APPLE_CONFIG` from `src/types/bonus.ts`. -/
def GOLDEN_APPLE_CONFIG : BonusConfig :=
  { type := "golden-apple"
    minPoints := 5
    maxPoints := 8
    lifetime := 10000
    minSpawnAfterEggs := 10
    maxSpawnAfterEggs := 25
    minRespawnAfterEggs := 8
    maxRespawnAfterEggs := 15
    spawnChance := mkRat 3 5
    maxInstances := 1
    priority := 40
    growsSnake := true
    effect := ⟨.none, Option.none⟩ }

/-- `CRYSTAL_GEM_CONFIG` from `src/types/bonus.ts`. -/
def CRYSTAL_GEM_CONFIG : BonusConfig :=
  { type := "crystal-gem"
    minPoints := 15
    maxPoints := 25
    lifetime := 8000
    minSpawnAfterEggs := 20
    maxSpawnAfterEggs := 40
    minRespawnAfterEggs := 15
    maxRespawnAfterEggs := 25
    spawnChance := mkRat 2 5
    maxInstances := 1
    priority := 30
    growsSnake := true
    effect := ⟨.none, Option.none⟩ }

/-- The contents of the `bonusRegistry` singleton after the five
`bonusRegistry.register` calls at module load, in registration order
(a JS `Map` preserves insertion order). -/
def registryConfigs : List BonusConfig :=
  [REGULAR_EGG_CONFIG, DRAGON_EGG_CONFIG, SHRINK_EGG_CONFIG,
   GOLDEN_APPLE_CONFIG, CRYSTAL_GEM_CONFIG]

/-- `bonusRegistry.get`: lookup of a config by its type id. -/
def registryGet (t : String) : Option BonusConfig :=
  registryConfigs.find? (fun c => c.type = t)

/-- Stable descending insertion by priority: a new config goes after every
already-placed config of greater or equal priority. -/
def insertByPriority (a : BonusConfig) : List BonusConfig → List BonusConfig
  | [] => [a]
  | b :: rest =>
    if b.priority ≥ a.priority then b :: insertByPriority a rest
    else a :: b :: rest

/-- `bonusRegistry.getAllSorted`: all configs sorted by descending priority.
JS `Array.prototype.sort` with comparator `b.priority - a.priority` is a
stable descending sort, modelled by a stable insertion sort (structural
recursion keeps the list kernel-computable). -/
def getAllSorted : List BonusConfig :=
  registryConfigs.foldl (fun acc a => insertByPriority a acc) []

/-- `bonusRegistry.getSpawnableBonuses`: sorted configs that are not the
regular egg and have a positive lifetime. -/
def getSpawnableBonuses : List BonusConfig :=
  getAllSorted.filter (fun c => c.type ≠ "regular-egg" ∧ c.lifetime > 0)

/-- `ActiveBonus` from `src/types/bonus.ts`.  The `id` (a render key built
from `Date.now()` and a random suffix) and `spawnedAt` timestamp are never
read by the engine's state computation and are omitted. -/
structure ActiveBonus where
  configType : String
  position : Position
  points : ℤ
  timeRemaining : ℤ
deriving DecidableEq, Repr

/-- `getRandomPoints` from `src/types/bonus.ts`:
`Math.floor(r * (max - min + 1)) + min` for a draw `r ∈ [0,1)`. -/
def getRandomPoints (r : ℚ) (config : BonusConfig) : ℤ :=
  if config.minPoints = config.maxPoints then config.minPoints
  else ⌊r * (config.maxPoints - config.minPoints + 1)⌋ + config.minPoints

/-- `getRandomSpawnThreshold` from `src/types/bonus.ts`. -/
def getRandomSpawnThreshold (r : ℚ) (config : BonusConfig) : ℤ :=
  if config.minSpawnAfterEggs = config.maxSpawnAfterEggs then config.minSpawnAfterEggs
  else ⌊r * (config.maxSpawnAfterEggs - config.minSpawnAfterEggs + 1)⌋ + config.minSpawnAfterEggs

/-- `getRandomRespawnThreshold` from `src/types/bonus.ts`. -/
def getRandomRespawnThreshold (r : ℚ) (config : BonusConfig) : ℤ :=
  if config.minRespawnAfterEggs = config.maxRespawnAfterEggs then config.minRespawnAfterEggs
  else ⌊r * (config.maxRespawnAfterEggs - config.minRespawnAfterEggs + 1)⌋ + config.minRespawnAfterEggs

/-- `createActiveBonus` from `src/types/bonus.ts`, with the points draw
passed in explicitly. -/
def createActiveBonus (config : BonusConfig) (position : Position) (pointsRoll : ℚ) :
    ActiveBonus :=
  { configType := config.type
    position := position
    points := getRandomPoints pointsRoll config
    timeRemaining := config.lifetime }

/-- `getBonusPositions` from `src/types/bonus.ts`. -/
def getBonusPositions (bonuses : List ActiveBonus) : List Position :=
  bonuses.map (fun b => b.position)

/-- Lookup in a JS object used as a string-keyed record, with the
`obj[key] || 0` default-to-zero idiom used throughout the engine. -/
def lookupD (m : List (String × ℤ)) (k : String) : ℤ :=
  match m.find? (fun p => p.1 = k) with
  | Option.some p => p.2
  | Option.none => 0

/-- JS object key assignment `obj[key] = v`: replaces the value of an
existing key in place, appends a fresh key at the end. -/
def setKey (m : List (String × ℤ)) (k : String) (v : ℤ) : List (String × ℤ) :=
  if m.any (fun p => p.1 = k) then
    m.map (fun p => if p.1 = k then (k, v) else p)
  else m ++ [(k, v)]

/-- `BonusManagerState` from `src/types/bonus.ts`. -/
structure BonusManagerState where
  activeBonuses : List ActiveBonus
  eggsEatenSince : List (String × ℤ)
  nextSpawnAt : List (String × ℤ)
deriving DecidableEq, Repr

/-- `createInitialBonusState` from `src/types/bonus.ts`, with the initial
threshold draws (one per spawnable config, in list order) passed as a
stream. -/
def createInitialBonusState (initRolls : ℕ → ℚ) : BonusManagerState :=
  { activeBonuses := []
    eggsEatenSince := getSpawnableBonuses.map (fun c => (c.type, 0))
    nextSpawnAt := (getSpawnableBonuses.enum).map
      (fun p => (p.2.type, getRandomSpawnThreshold (initRolls p.1) p.2)) }

/-- `GameState` from `GameScreen` (the current, helper-refactored version). -/
structure GameState where
  snake : List Position
  food : Position
  bonusState : BonusManagerState
  direction : Direction
  nextDirection : Direction
  score : ℤ
  isRunning : Bool
  isGameOver : Bool
deriving DecidableEq, Repr

/-- `getRandomPosition` from `GameScreen`: rejection sampling — draw grid
cells until one avoids `excludePositions`.  The raw draws
`(Math.floor(random*GRID_WIDTH), Math.floor(random*GRID_HEIGHT))` are
modelled as a stream of positions; `fuel` bounds the retries, `none`
standing for the source's non-terminating loop. -/
def getRandomPosition (fuel : ℕ) (draws : ℕ → Position) (excludePositions : List Position) :
    Option Position :=
  ((List.range fuel).map draws).find? (fun p => ¬ excludePositions.contains p)

/-- `checkCollision` from `GameScreen`: wall collision against the
`[0,gridWidth) × [0,gridHeight)` board, or self collision against any
segment of index `≥ 1` (the head at index 0 is skipped). -/
def checkCollision (W H : ℤ) (head : Position) (snake : List Position) : Bool :=
  if head.x < 0 ∨ head.x ≥ W ∨ head.y < 0 ∨ head.y ≥ H then true
  else (snake.drop 1).any (fun seg => seg.x = head.x ∧ seg.y = head.y)

/-- `processExpiredBonuses` from `GameScreen`: every active bonus whose
registered type has a positive lifetime loses 100 ms; those reaching
`≤ 0` move to the `expired` list, the rest stay `updated` (bonuses with
an unknown type or zero lifetime pass through untouched). -/
def processExpiredBonuses : List ActiveBonus → List ActiveBonus × List ActiveBonus
  | [] => ([], [])
  | bonus :: rest =>
    let (updated, expired) := processExpiredBonuses rest
    match registryGet bonus.configType with
    | Option.none => (bonus :: updated, expired)
    | Option.some config =>
      if config.lifetime = 0 then (bonus :: updated, expired)
      else
        let newTime := bonus.timeRemaining - 100
        if newTime ≤ 0 then (updated, bonus :: expired)
        else ({ bonus with timeRemaining := newTime } :: updated, expired)

/-- `resetExpiredBonusCounters` from `GameScreen`: each expired bonus with
a registered config gets its event counter zeroed and a fresh respawn
threshold; the respawn draws are indexed by position in the expired list. -/
def resetExpiredBonusCounters (respawnRolls : ℕ → ℚ) (expired : List ActiveBonus)
    (eggsEatenSince nextSpawnAt : List (String × ℤ)) :
    List (String × ℤ) × List (String × ℤ) :=
  (expired.enum).foldl
    (fun acc p =>
      match registryGet p.2.configType with
      | Option.none => acc
      | Option.some config =>
        (setKey acc.1 p.2.configType 0,
         setKey acc.2 p.2.configType (getRandomRespawnThreshold (respawnRolls p.1) config)))
    (eggsEatenSince, nextSpawnAt)

/-- The 100 ms bonus-timer callback from `GameScreen`: advance every timed
bonus and reset the counters of the expired ones. -/
def bonusTimerStep (respawnRolls : ℕ → ℚ) (s : GameState) : GameState :=
  let pe := processExpiredBonuses s.bonusState.activeBonuses
  let rc := resetExpiredBonusCounters respawnRolls pe.2
    s.bonusState.eggsEatenSince s.bonusState.nextSpawnAt
  { s with bonusState :=
      { activeBonuses := pe.1
        eggsEatenSince := rc.1
        nextSpawnAt := rc.2 } }

/-- `incrementEggsEaten` from `GameScreen`. -/
def incrementEggsEaten (spawnableBonuses : List BonusConfig)
    (currentEggsEaten : List (String × ℤ)) : List (String × ℤ) :=
  spawnableBonuses.foldl
    (fun acc config => setKey acc config.type (lookupD acc config.type + 1))
    currentEggsEaten

/-- The per-config randomness consumed by one spawn attempt in
`trySpawnBonuses`: the `Math.random() <= spawnChance` roll, the cell
draws for `getRandomPosition`, and the points draw of `createActiveBonus`. -/
structure SpawnRand where
  roll : ℚ
  posDraws : ℕ → Position
  pointsRoll : ℚ

/-- The gating condition one config must pass in a spawn resolution pass:
events-since at or above the sampled threshold, active instances of the
type below `maxInstances`, and the uniform roll at or below `spawnChance`
(`shouldSpawn` in the source). -/
def spawnCond (bonusState : BonusManagerState) (r : SpawnRand) (config : BonusConfig) :
    Prop :=
  lookupD bonusState.eggsEatenSince config.type ≥ lookupD bonusState.nextSpawnAt config.type ∧
    (((bonusState.activeBonuses.filter
        (fun b => b.configType = config.type)).length : ℤ) < config.maxInstances) ∧
    r.roll ≤ config.spawnChance

instance (bonusState : BonusManagerState) (r : SpawnRand) (config : BonusConfig) :
    Decidable (spawnCond bonusState r config) := by
  unfold spawnCond
  infer_instance

/-- `trySpawnBonuses` from `GameScreen` (part_003): for each spawnable
config, spawn when the event counter has reached the threshold, the
active-instance count of the type is below `maxInstances`, and the roll
passes `spawnChance`.  The exclusion list is rebuilt per config from
`bonusState.activeBonuses` — which the loop never updates, so bonuses
spawned earlier in the same pass are not excluded. -/
def trySpawnGo (rands : ℕ → SpawnRand) (fuel : ℕ) (bonusState : BonusManagerState)
    (snake : List Position) (food : Position) :
    ℕ → List BonusConfig → Option (List ActiveBonus)
  | _, [] => Option.some []
  | i, config :: rest =>
    if spawnCond bonusState (rands i) config then
      match getRandomPosition fuel (rands i).posDraws
          (snake ++ [food] ++ getBonusPositions bonusState.activeBonuses) with
      | Option.none => Option.none
      | Option.some position =>
        (trySpawnGo rands fuel bonusState snake food (i + 1) rest).map
          (fun newBonuses => createActiveBonus config position (rands i).pointsRoll :: newBonuses)
    else trySpawnGo rands fuel bonusState snake food (i + 1) rest

/-- Entry point of `trySpawnBonuses`, iterating over the spawnable configs
from index 0. -/
def trySpawnBonuses (rands : ℕ → SpawnRand) (fuel : ℕ)
    (spawnableBonuses : List BonusConfig) (bonusState : BonusManagerState)
    (snake : List Position) (food : Position) : Option (List ActiveBonus) :=
  trySpawnGo rands fuel bonusState snake food 0 spawnableBonuses

/-- `applyShrinkEffect` from `GameScreen`: pop `shrinkAmount` tail cells,
but only when the snake stays above the floor of 3 (`minLength`); the
in-place mutation is modelled by returning the new list. -/
def applyShrinkEffect (snake : List Position) (shrinkAmount : ℤ) : List Position :=
  let minLength : ℤ := 3
  if (snake.length : ℤ) > shrinkAmount + minLength - 1 then
    snake.take (snake.length - shrinkAmount.toNat)
  else snake

/-- The indexed scan of `findCollidedBonus`, mirroring its `for` loop. -/
def findCollidedBonusGo (position : Position) : ℕ → List ActiveBonus → Option ℕ
  | _, [] => Option.none
  | i, b :: rest =>
    if b.position.x = position.x ∧ b.position.y = position.y then Option.some i
    else findCollidedBonusGo position (i + 1) rest

/-- `findCollidedBonus` from `GameScreen`: index of the first active bonus
occupying `position` (`-1` in the source becomes `none`). -/
def findCollidedBonus (bonuses : List ActiveBonus) (position : Position) : Option ℕ :=
  findCollidedBonusGo position 0 bonuses

/-- `removeBonusAtIndex` from `GameScreen`: `filter((_, i) => i !== index)`. -/
def removeBonusAtIndex (bonuses : List ActiveBonus) (index : ℕ) : List ActiveBonus :=
  ((bonuses.enum).filter (fun p => p.1 ≠ index)).map (fun p => p.2)

/-- Result record of `handleFoodCollision` (`isNewHighScore`, a UI-only
flag, is omitted). -/
structure FoodCollisionResult where
  newFood : Position
  newScore : ℤ
  snakeGrew : Bool
  newBonusState : BonusManagerState

/-- The randomness consumed by one tick: cell draws for the food
relocation, per-spawnable-config spawn randomness, the respawn-threshold
roll of a bonus collection, and the shared rejection-sampling fuel. -/
structure TickRand where
  foodDraws : ℕ → Position
  spawnRands : ℕ → SpawnRand
  respawnRoll : ℚ
  fuel : ℕ

/-- `handleFoodCollision` from `GameScreen`: score the regular egg, mark
growth, relocate the food off the snake and the active bonuses, bump
every spawnable type's event counter, and run a spawn pass. -/
def handleFoodCollision (env : TickRand) (newSnake : List Position)
    (currentScore : ℤ) (bonusState : BonusManagerState) :
    Option FoodCollisionResult :=
  match getRandomPosition env.fuel env.foodDraws
      (newSnake ++ getBonusPositions bonusState.activeBonuses) with
  | Option.none => Option.none
  | Option.some newFood =>
    match trySpawnBonuses env.spawnRands env.fuel getSpawnableBonuses
        { bonusState with eggsEatenSince :=
            incrementEggsEaten getSpawnableBonuses bonusState.eggsEatenSince }
        newSnake newFood with
    | Option.none => Option.none
    | Option.some spawnedBonuses =>
      Option.some
        { newFood := newFood
          newScore := currentScore + REGULAR_EGG_CONFIG.minPoints
          snakeGrew := REGULAR_EGG_CONFIG.growsSnake
          newBonusState :=
            { activeBonuses := bonusState.activeBonuses ++ spawnedBonuses
              eggsEatenSince :=
                incrementEggsEaten getSpawnableBonuses bonusState.eggsEatenSince
              nextSpawnAt := bonusState.nextSpawnAt } }

/-- Result record of `handleBonusCollision`; `newSnake` carries the
in-place shrink mutation of the source's snake array. -/
structure BonusCollisionResult where
  newSnake : List Position
  newScore : ℤ
  snakeGrew : Bool
  newBonusState : BonusManagerState

/-- `handleBonusCollision` from `GameScreen`: an unknown config type skips
all effect resolution; otherwise award the instance's points, OR the grow
flag, apply a shrink effect when configured, remove the instance, zero the
type's counter and resample its respawn threshold. -/
def handleBonusCollision (respawnRoll : ℚ) (newSnake : List Position)
    (collidedBonusIndex : ℕ) (currentScore : ℤ) (bonusState : BonusManagerState)
    (currentSnakeGrew : Bool) : BonusCollisionResult :=
  match bonusState.activeBonuses.get? collidedBonusIndex with
  | Option.none =>
    { newSnake := newSnake, newScore := currentScore,
      snakeGrew := currentSnakeGrew, newBonusState := bonusState }
  | Option.some collidedBonus =>
    match registryGet collidedBonus.configType with
    | Option.none =>
      { newSnake := newSnake, newScore := currentScore,
        snakeGrew := currentSnakeGrew, newBonusState := bonusState }
    | Option.some config =>
      let newScore := currentScore + collidedBonus.points
      let snakeGrew := currentSnakeGrew || config.growsSnake
      let shrunkSnake :=
        if config.effect.type = BonusEffectType.shrink ∧ config.effect.value.getD 0 ≠ 0 then
          applyShrinkEffect newSnake (config.effect.value.getD 0)
        else newSnake
      { newSnake := shrunkSnake
        newScore := newScore
        snakeGrew := snakeGrew
        newBonusState :=
          { activeBonuses := removeBonusAtIndex bonusState.activeBonuses collidedBonusIndex
            eggsEatenSince := setKey bonusState.eggsEatenSince collidedBonus.configType 0
            nextSpawnAt := setKey bonusState.nextSpawnAt collidedBonus.configType
              (getRandomRespawnThreshold respawnRoll config) } }

/-- One simulation tick, the `setInterval` callback of `GameScreen`:
guard against inactive sessions, move the head, end the game on a fatal
collision, otherwise resolve the regular-egg and bonus collisions and pop
the tail unless the snake grew.  `none` models the source diverging in
rejection sampling (or indexing an empty snake). -/
def tick (W H : ℤ) (env : TickRand) (bufferedDirection : Direction) (s : GameState) :
    Option GameState :=
  if ¬ s.isRunning ∨ s.isGameOver then Option.some s
  else
    match s.snake with
    | [] => Option.none
    | head :: _ =>
      let dir := DIRECTIONS bufferedDirection
      let newHead : Position := ⟨head.x + dir.x, head.y + dir.y⟩
      if checkCollision W H newHead s.snake then
        Option.some { s with isGameOver := true, isRunning := false }
      else
        let newSnake := newHead :: s.snake
        let ateFoodThisTick := newHead.x = s.food.x ∧ newHead.y = s.food.y
        let afterFood : Option (Position × ℤ × Bool × BonusManagerState) :=
          if ateFoodThisTick then
            (handleFoodCollision env newSnake s.score s.bonusState).map
              (fun r => (r.newFood, r.newScore, r.snakeGrew, r.newBonusState))
          else Option.some (s.food, s.score, false, s.bonusState)
        afterFood.map (fun r =>
          let newFood := r.1
          let score1 := r.2.1
          let grew1 := r.2.2.1
          let bs1 := r.2.2.2
          let afterBonus :=
            match findCollidedBonus bs1.activeBonuses newHead with
            | Option.none =>
              ({ newSnake := newSnake, newScore := score1,
                 snakeGrew := grew1, newBonusState := bs1 } : BonusCollisionResult)
            | Option.some collidedBonusIndex =>
              handleBonusCollision env.respawnRoll newSnake collidedBonusIndex score1 bs1 grew1
          let finalSnake :=
            if afterBonus.snakeGrew then afterBonus.newSnake
            else afterBonus.newSnake.dropLast
          { s with
              snake := finalSnake
              food := newFood
              bonusState := afterBonus.newBonusState
              score := afterBonus.newScore
              direction := bufferedDirection })

/-- The randomness consumed by `createInitialState`: cell draws for the
initial food placement and the initial spawn-threshold draws. -/
structure InitRand where
  foodDraws : ℕ → Position
  thresholdRolls : ℕ → ℚ
  fuel : ℕ

/-- `createInitialState` from `GameScreen`: a 3-segment snake centered on
the board heading `RIGHT`, the food on a random free cell, fresh bonus
state, zero score, not running. -/
def createInitialState (W H : ℤ) (init : InitRand) : Option GameState :=
  let centerX := W / 2
  let centerY := H / 2
  let initialSnake : List Position :=
    [⟨centerX, centerY⟩, ⟨centerX - 1, centerY⟩, ⟨centerX - 2, centerY⟩]
  (getRandomPosition init.fuel init.foodDraws initialSnake).map (fun food =>
    { snake := initialSnake
      food := food
      bonusState := createInitialBonusState init.thresholdRolls
      direction := Direction.RIGHT
      nextDirection := Direction.RIGHT
      score := 0
      isRunning := false
      isGameOver := false })

/-- `startGame` from `GameScreen`: a fresh initial state with
`isRunning := true`. -/
def startGame (s : GameState) : GameState :=
  { s with isRunning := true }

/-- A rational draw modelling a `Math.random()` result. -/
def ValidRoll (r : ℚ) : Prop := 0 ≤ r ∧ r < 1

/-- All rolls of a tick's randomness are genuine `Math.random()` values. -/
def ValidTick (env : TickRand) : Prop :=
  (∀ i, ValidRoll (env.spawnRands i).roll ∧ ValidRoll (env.spawnRands i).pointsRoll) ∧
    ValidRoll env.respawnRoll

/-- All rolls of the initial randomness are genuine `Math.random()` values. -/
def ValidInit (init : InitRand) : Prop :=
  ∀ i, ValidRoll (init.thresholdRolls i)

/-- The session states reachable in play: a started fresh session, plus
closure under ticks (with any buffered direction) and 100 ms bonus-timer
callbacks (which only fire while the session is running). -/
inductive Reachable (W H : ℤ) : GameState → Prop where
  | start : ∀ init s, ValidInit init → createInitialState W H init = Option.some s →
      Reachable W H (startGame s)
  | tickStep : ∀ s env d s', Reachable W H s → ValidTick env →
      tick W H env d s = Option.some s' → Reachable W H s'
  | timerStep : ∀ s rolls, Reachable W H s → (∀ i, ValidRoll (rolls i)) →
      s.isRunning = true → Reachable W H (bonusTimerStep rolls s)

/-! ### Basic lemmas about the random helpers and record updates -/

/-- A successful rejection-sampling draw avoids the excluded cells. -/
lemma getRandomPosition_not_mem {fuel : ℕ} {draws : ℕ → Position}
    {exclude : List Position} {p : Position}
    (h : getRandomPosition fuel draws exclude = Option.some p) : p ∉ exclude := by
  have := List.find?_some h
  simpa using of_decide_eq_true this

/-- A successful rejection-sampling draw (coordinate form). -/
lemma getRandomPosition_not_mem' {fuel : ℕ} {draws : ℕ → Position}
    {exclude : List Position} {p q : Position}
    (h : getRandomPosition fuel draws exclude = Option.some p) (hq : q ∈ exclude) :
    p ≠ q := by
  intro rfl_eq
  exact getRandomPosition_not_mem h (rfl_eq ▸ hq)

/-- The `setKey` rewrite touches values only, never keys, so `find?` on a
key predicate commutes with it. -/
lemma find?_map_keyPreserving (m : List (String × ℤ)) (f : String × ℤ → String × ℤ)
    (hf : ∀ p, (f p).1 = p.1) (k' : String) :
    (m.map f).find? (fun q => q.1 = k') = (m.find? (fun q => q.1 = k')).map f := by
  induction m with
  | nil => simp
  | cons hd tl ih =>
    by_cases hk : hd.1 = k'
    · have : (f hd).1 = k' := by rw [hf]; exact hk
      simp [List.find?_cons, hk, this]
    · have : ¬ (f hd).1 = k' := by rw [hf]; exact hk
      simp [List.find?_cons, hk, this, ih]

lemma find?_append_none {α : Type} (p : α → Bool) (l₁ l₂ : List α)
    (h : l₁.find? p = Option.none) : (l₁ ++ l₂).find? p = l₂.find? p := by
  induction l₁ with
  | nil => simp
  | cons hd tl ih =>
    have hhd : ¬ p hd := by
      intro hp
      simp [List.find?_cons, hp] at h
    have htl : tl.find? p = Option.none := by
      simpa [List.find?_cons, hhd] using h
    simpa [List.find?_cons, hhd] using ih htl

lemma find?_append_some {α : Type} (p : α → Bool) (l₁ l₂ : List α) (x : α)
    (h : l₁.find? p = Option.some x) : (l₁ ++ l₂).find? p = Option.some x := by
  induction l₁ with
  | nil => simp at h
  | cons hd tl ih =>
    by_cases hhd : p hd
    · simp [List.find?_cons, hhd] at h ⊢
      exact h
    · have htl : tl.find? p = Option.some x := by
        simpa [List.find?_cons, hhd] using h
      simpa [List.find?_cons, hhd] using ih htl

lemma lookupD_setKey_self (m : List (String × ℤ)) (k : String) (v : ℤ) :
    lookupD (setKey m k v) k = v := by
  unfold lookupD setKey
  by_cases h : m.any (fun p => p.1 = k)
  · simp only [if_pos h]
    rw [find?_map_keyPreserving m _ (fun p => by by_cases hp : p.1 = k <;> simp [hp]) k]
    rcases List.any_eq_true.mp h with ⟨x, hx, hxk⟩
    have hxk' : x.1 = k := of_decide_eq_true hxk
    obtain ⟨y, hy⟩ : ∃ y, m.find? (fun q => q.1 = k) = Option.some y := by
      rcases Option.eq_none_or_eq_some (m.find? (fun q => q.1 = k)) with hnone | hsome
      · rw [List.find?_eq_none] at hnone
        exact absurd (by simpa using hxk') (by simpa using hnone x hx)
      · exact hsome
    have hyk : y.1 = k := by simpa using List.find?_some hy
    simp [hy, hyk]
  · simp only [if_neg h]
    have hfind : m.find? (fun p => p.1 = k) = Option.none := by
      rw [List.find?_eq_none]
      intro x hx
      simp only [decide_eq_true_eq]
      intro hxk
      exact h (List.any_eq_true.mpr ⟨x, hx, by simpa using hxk⟩)
    rw [find?_append_none _ _ _ hfind]
    simp [List.find?_cons]

lemma lookupD_setKey_other (m : List (String × ℤ)) (k k' : String) (v : ℤ)
    (hne : k' ≠ k) : lookupD (setKey m k v) k' = lookupD m k' := by
  unfold lookupD setKey
  by_cases h : m.any (fun p => p.1 = k)
  · simp only [if_pos h]
    rw [find?_map_keyPreserving m _ (fun p => by by_cases hp : p.1 = k <;> simp [hp]) k']
    rcases Option.eq_none_or_eq_some (m.find? (fun q => q.1 = k')) with hnone | ⟨y, hy⟩
    · simp [hnone]
    · have hyk : y.1 = k' := by simpa using List.find?_some hy
      have hyne : ¬ y.1 = k := by rw [hyk]; exact hne
      simp [hy, hyne]
  · simp only [if_neg h]
    rcases Option.eq_none_or_eq_some (m.find? (fun q => q.1 = k')) with hnone | ⟨y, hy⟩
    · rw [find?_append_none _ _ _ hnone]
      simp [List.find?_cons, Ne.symm hne, hnone]
    · rw [find?_append_some _ _ _ _ hy, hy]

lemma floor_mul_range (r : ℚ) (hr0 : 0 ≤ r) (hr1 : r < 1) (k : ℤ) (hk : 0 < k) :
    0 ≤ ⌊r * (k : ℚ)⌋ ∧ ⌊r * (k : ℚ)⌋ < k := by
  constructor
  · exact Int.floor_nonneg.mpr (mul_nonneg hr0 (by exact_mod_cast hk.le))
  · apply Int.floor_lt.mpr
    calc r * (k : ℚ) < 1 * (k : ℚ) :=
          mul_lt_mul_of_pos_right hr1 (by exact_mod_cast hk)
      _ = (k : ℚ) := one_mul _

/-- A valid draw lands the uniform respawn threshold inside the
inclusive configured range. -/
lemma getRandomRespawnThreshold_mem (r : ℚ) (config : BonusConfig)
    (hv : ValidRoll r) (hle : config.minRespawnAfterEggs ≤ config.maxRespawnAfterEggs) :
    config.minRespawnAfterEggs ≤ getRandomRespawnThreshold r config ∧
      getRandomRespawnThreshold r config ≤ config.maxRespawnAfterEggs := by
  unfold getRandomRespawnThreshold
  by_cases heq : config.minRespawnAfterEggs = config.maxRespawnAfterEggs
  · simp [heq]
  · have hk : 0 < config.maxRespawnAfterEggs - config.minRespawnAfterEggs + 1 := by omega
    have hb := floor_mul_range r hv.1 hv.2 _ hk
    rw [if_neg heq]
    have hcast : ((config.maxRespawnAfterEggs - config.minRespawnAfterEggs + 1 : ℤ) : ℚ) =
        (config.maxRespawnAfterEggs : ℚ) - (config.minRespawnAfterEggs : ℚ) + 1 := by
      push_cast
      ring
    rw [hcast] at hb
    omega

/-- A valid draw lands the uniform first-spawn threshold inside the
inclusive configured range. -/
lemma getRandomSpawnThreshold_mem (r : ℚ) (config : BonusConfig)
    (hv : ValidRoll r) (hle : config.minSpawnAfterEggs ≤ config.maxSpawnAfterEggs) :
    config.minSpawnAfterEggs ≤ getRandomSpawnThreshold r config ∧
      getRandomSpawnThreshold r config ≤ config.maxSpawnAfterEggs := by
  unfold getRandomSpawnThreshold
  by_cases heq : config.minSpawnAfterEggs = config.maxSpawnAfterEggs
  · simp [heq]
  · have hk : 0 < config.maxSpawnAfterEggs - config.minSpawnAfterEggs + 1 := by omega
    have hb := floor_mul_range r hv.1 hv.2 _ hk
    rw [if_neg heq]
    have hcast : ((config.maxSpawnAfterEggs - config.minSpawnAfterEggs + 1 : ℤ) : ℚ) =
        (config.maxSpawnAfterEggs : ℚ) - (config.minSpawnAfterEggs : ℚ) + 1 := by
      push_cast
      ring
    rw [hcast] at hb
    omega

/-! ### C4 — the fatal-collision predicate -/

/-- C4: `checkCollision` holds exactly on out-of-bounds candidate heads or
heads matching a snake segment of index `≥ 1`; consequently a candidate
head at `x = -1`, `x = gridWidth`, `y = -1` or `y = gridHeight` ends the
session on that tick. -/
theorem checkCollision_iff_and_boundary :
    (∀ (W H : ℤ) (head : Position) (snake : List Position),
      checkCollision W H head snake = true ↔
        ((head.x < 0 ∨ W ≤ head.x ∨ head.y < 0 ∨ H ≤ head.y) ∨
          ∃ i : ℕ, 1 ≤ i ∧ snake.get? i = Option.some head)) ∧
    (∀ (W H : ℤ) (env : TickRand) (d : Direction) (s : GameState)
      (h : Position) (rest : List Position),
      s.isRunning = true → s.isGameOver = false → s.snake = h :: rest →
      (h.x + (DIRECTIONS d).x = -1 ∨ h.x + (DIRECTIONS d).x = W ∨
        h.y + (DIRECTIONS d).y = -1 ∨ h.y + (DIRECTIONS d).y = H) →
      tick W H env d s =
        Option.some { s with isGameOver := true, isRunning := false }) := by
  have hiff : ∀ (W H : ℤ) (head : Position) (snake : List Position),
      checkCollision W H head snake = true ↔
        ((head.x < 0 ∨ W ≤ head.x ∨ head.y < 0 ∨ H ≤ head.y) ∨
          ∃ i : ℕ, 1 ≤ i ∧ snake.get? i = Option.some head) := by
    intro W H head snake
    unfold checkCollision
    by_cases hwall : head.x < 0 ∨ head.x ≥ W ∨ head.y < 0 ∨ head.y ≥ H
    · simp only [if_pos hwall, true_iff]
      exact Or.inl (by tauto)
    · simp only [if_neg hwall]
      rw [List.any_eq_true]
      constructor
      · rintro ⟨seg, hseg, hxy⟩
        rcases List.mem_iff_get?.mp hseg with ⟨j, hj⟩
        refine Or.inr ⟨1 + j, by omega, ?_⟩
        have hdrop : (snake.drop 1).get? j = snake.get? (1 + j) := by
          simp only [List.get?_eq_getElem?, List.getElem?_drop, Nat.add_comm]
        rw [← hdrop, hj]
        congr 1
        rcases seg with ⟨sx, sy⟩
        rcases head with ⟨hx, hy⟩
        simp only [decide_eq_true_eq] at hxy
        simp only [Position.mk.injEq]
        exact ⟨hxy.1, hxy.2⟩
      · rintro (hw | ⟨i, hi1, hget⟩)
        · exact absurd hw (by tauto)
        · refine ⟨head, ?_, by simp⟩
          have hdrop : (snake.drop 1).get? (i - 1) = snake.get? (1 + (i - 1)) := by
            simp only [List.get?_eq_getElem?, List.getElem?_drop, Nat.add_comm]
          rw [show 1 + (i - 1) = i by omega] at hdrop
          exact List.mem_iff_get?.mpr ⟨i - 1, hdrop.trans hget⟩
  refine ⟨hiff, ?_⟩
  intro W H env d s h rest hrun hover hsnake hb
  have hcol : checkCollision W H
      ⟨h.x + (DIRECTIONS d).x, h.y + (DIRECTIONS d).y⟩ s.snake = true := by
    rw [hiff]
    refine Or.inl ?_
    rcases hb with hb | hb | hb | hb
    · exact Or.inl (by simp [hb])
    · exact Or.inr (Or.inl (by simp [hb]))
    · exact Or.inr (Or.inr (Or.inl (by simp [hb])))
    · exact Or.inr (Or.inr (Or.inr (by simp [hb])))
  rw [hsnake] at hcol
  unfold tick
  rw [hsnake]
  simp [hrun, hover, hcol]

/-- C4 witness: a concrete running state whose head moves to `x = gridWidth`. -/
theorem checkCollision_iff_and_boundary_witness :
    tick 20 20 ⟨fun _ => ⟨0, 0⟩, fun _ => ⟨0, fun _ => ⟨0, 0⟩, 0⟩, 0, 3⟩ Direction.RIGHT
        { snake := [⟨19, 10⟩, ⟨18, 10⟩, ⟨17, 10⟩], food := ⟨0, 0⟩,
          bonusState := ⟨[], [], []⟩, direction := Direction.RIGHT,
          nextDirection := Direction.RIGHT, score := 0,
          isRunning := true, isGameOver := false } =
      Option.some
        { snake := [⟨19, 10⟩, ⟨18, 10⟩, ⟨17, 10⟩], food := ⟨0, 0⟩,
          bonusState := ⟨[], [], []⟩, direction := Direction.RIGHT,
          nextDirection := Direction.RIGHT, score := 0,
          isRunning := false, isGameOver := true } :=
  checkCollision_iff_and_boundary.2 20 20 _ Direction.RIGHT _ ⟨19, 10⟩ _
    rfl rfl rfl (Or.inr (Or.inl (by norm_num [DIRECTIONS])))

/-! ### C3 — the fatal tick is a pure flag flip and is terminal -/

/-- C3: when the fatal-collision check holds for the candidate head, the
tick returns the previous state with only `isGameOver := true` and
`isRunning := false` changed (the `{ s with … }` update keeps the snake,
food, bonus-manager state, score and committed direction); and the
resulting game-over state is a fixed point of every further tick. -/
theorem tick_fatal_frame_and_terminal
    (W H : ℤ) (env : TickRand) (d : Direction) (s : GameState)
    (h : Position) (rest : List Position)
    (hrun : s.isRunning = true) (hover : s.isGameOver = false)
    (hsnake : s.snake = h :: rest)
    (hcol : checkCollision W H
      ⟨h.x + (DIRECTIONS d).x, h.y + (DIRECTIONS d).y⟩ s.snake = true) :
    tick W H env d s = Option.some { s with isGameOver := true, isRunning := false } ∧
      ∀ (env2 : TickRand) (d2 : Direction),
        tick W H env2 d2 { s with isGameOver := true, isRunning := false } =
          Option.some { s with isGameOver := true, isRunning := false } := by
  constructor
  · rw [hsnake] at hcol
    unfold tick
    rw [hsnake]
    simp [hrun, hover, hcol]
  · intro env2 d2
    unfold tick
    simp

/-- C3 witness: the head runs into the snake's own third segment; the tick
flips the flags only, and a further tick leaves the game-over state alone. -/
theorem tick_fatal_frame_and_terminal_witness :
    tick 20 20 ⟨fun _ => ⟨0, 0⟩, fun _ => ⟨0, fun _ => ⟨0, 0⟩, 0⟩, 0, 3⟩ Direction.UP
        { snake := [⟨10, 10⟩, ⟨9, 10⟩, ⟨9, 9⟩, ⟨10, 9⟩], food := ⟨0, 0⟩,
          bonusState := ⟨[], [], []⟩, direction := Direction.RIGHT,
          nextDirection := Direction.RIGHT, score := 7,
          isRunning := true, isGameOver := false } =
      Option.some
        { snake := [⟨10, 10⟩, ⟨9, 10⟩, ⟨9, 9⟩, ⟨10, 9⟩], food := ⟨0, 0⟩,
          bonusState := ⟨[], [], []⟩, direction := Direction.RIGHT,
          nextDirection := Direction.RIGHT, score := 7,
          isRunning := false, isGameOver := true } :=
  (tick_fatal_frame_and_terminal 20 20 _ Direction.UP _ ⟨10, 10⟩ _
    rfl rfl rfl (by decide)).1

/-! ### C9 — collision with a bonus of an unregistered type -/

/-- C9: when the candidate head lands on an active bonus whose
`configType` is absent from the registry, the tick still produces a state
(it does not fail): the effect resolution is skipped, so the score, the
snake length, the per-type counters and thresholds, and even the active
list itself are unchanged — the snake simply moves. -/
theorem tick_unknown_bonus_skipped
    (W H : ℤ) (env : TickRand) (d : Direction) (s : GameState)
    (h : Position) (rest : List Position) (i : ℕ) (b : ActiveBonus)
    (hrun : s.isRunning = true) (hover : s.isGameOver = false)
    (hsnake : s.snake = h :: rest)
    (hcol : checkCollision W H
      ⟨h.x + (DIRECTIONS d).x, h.y + (DIRECTIONS d).y⟩ s.snake = false)
    (hnofood : ¬ (h.x + (DIRECTIONS d).x = s.food.x ∧ h.y + (DIRECTIONS d).y = s.food.y))
    (hfind : findCollidedBonus s.bonusState.activeBonuses
      ⟨h.x + (DIRECTIONS d).x, h.y + (DIRECTIONS d).y⟩ = Option.some i)
    (hget : s.bonusState.activeBonuses.get? i = Option.some b)
    (hmissing : registryGet b.configType = Option.none) :
    tick W H env d s =
      Option.some { s with
        snake := ((⟨h.x + (DIRECTIONS d).x, h.y + (DIRECTIONS d).y⟩ : Position)
          :: s.snake).dropLast
        direction := d } ∧
      (((⟨h.x + (DIRECTIONS d).x, h.y + (DIRECTIONS d).y⟩ : Position)
          :: s.snake).dropLast).length = s.snake.length := by
  constructor
  · rw [hsnake] at hcol
    unfold tick
    rw [hsnake]
    simp only [hrun, hover]
    rw [if_neg (by simp)]
    rw [if_neg (by simp [hcol])]
    rw [← hsnake]
    rw [if_neg hnofood]
    simp only [Option.map_some', hfind, handleBonusCollision, hget, hmissing]
    simp
  · rw [hsnake]
    simp

/-- C9 witness: a bonus of the unregistered type `mystery-egg` sits in the
snake's path; the tick succeeds and only moves the snake. -/
theorem tick_unknown_bonus_skipped_witness :
    tick 20 20 ⟨fun _ => ⟨0, 0⟩, fun _ => ⟨0, fun _ => ⟨0, 0⟩, 0⟩, 0, 3⟩ Direction.RIGHT
        { snake := [⟨10, 10⟩, ⟨9, 10⟩, ⟨8, 10⟩], food := ⟨0, 0⟩,
          bonusState := ⟨[⟨"mystery-egg", ⟨11, 10⟩, 42, 5000⟩],
            [("dragon-egg", 2)], [("dragon-egg", 5)]⟩,
          direction := Direction.RIGHT, nextDirection := Direction.RIGHT,
          score := 4, isRunning := true, isGameOver := false } =
      Option.some
        { snake := [⟨11, 10⟩, ⟨10, 10⟩, ⟨9, 10⟩], food := ⟨0, 0⟩,
          bonusState := ⟨[⟨"mystery-egg", ⟨11, 10⟩, 42, 5000⟩],
            [("dragon-egg", 2)], [("dragon-egg", 5)]⟩,
          direction := Direction.RIGHT, nextDirection := Direction.RIGHT,
          score := 4, isRunning := true, isGameOver := false } ∧
      ([(⟨11, 10⟩ : Position), ⟨10, 10⟩, ⟨9, 10⟩, ⟨8, 10⟩].dropLast).length = 3 := by
  have := tick_unknown_bonus_skipped 20 20
    ⟨fun _ => ⟨0, 0⟩, fun _ => ⟨0, fun _ => ⟨0, 0⟩, 0⟩, 0, 3⟩ Direction.RIGHT
    { snake := [⟨10, 10⟩, ⟨9, 10⟩, ⟨8, 10⟩], food := ⟨0, 0⟩,
      bonusState := ⟨[⟨"mystery-egg", ⟨11, 10⟩, 42, 5000⟩],
        [("dragon-egg", 2)], [("dragon-egg", 5)]⟩,
      direction := Direction.RIGHT, nextDirection := Direction.RIGHT,
      score := 4, isRunning := true, isGameOver := false }
    ⟨10, 10⟩ [⟨9, 10⟩, ⟨8, 10⟩] 0 ⟨"mystery-egg", ⟨11, 10⟩, 42, 5000⟩
    rfl rfl rfl (by decide) (by decide) (by decide) (by decide) (by decide)
  exact ⟨this.1, by decide⟩

/-! ### C10 — at most one bonus instance is collected per tick -/

/-- The indexed scan returns the first matching index at or after its
start offset, and nothing before it matches. -/
lemma findCollidedBonusGo_spec (pos : Position) :
    ∀ (l : List ActiveBonus) (k i : ℕ),
      findCollidedBonusGo pos k l = Option.some i →
      k ≤ i ∧
        (∃ bb, l.get? (i - k) = Option.some bb ∧
          bb.position.x = pos.x ∧ bb.position.y = pos.y) ∧
        (∀ j, j < i - k → ∀ bb, l.get? j = Option.some bb →
          ¬ (bb.position.x = pos.x ∧ bb.position.y = pos.y)) := by
  intro l
  induction l with
  | nil => intro k i hgo; simp [findCollidedBonusGo] at hgo
  | cons b rest ih =>
    intro k i hgo
    unfold findCollidedBonusGo at hgo
    by_cases hmatch : b.position.x = pos.x ∧ b.position.y = pos.y
    · rw [if_pos hmatch] at hgo
      obtain rfl : k = i := by simpa using hgo
      refine ⟨le_refl _, ⟨b, by simp, hmatch⟩, ?_⟩
      intro j hj
      omega
    · rw [if_neg hmatch] at hgo
      obtain ⟨hk, ⟨bb, hbb, hbbm⟩, hmin⟩ := ih (k + 1) i hgo
      refine ⟨by omega, ⟨bb, ?_, hbbm⟩, ?_⟩
      · have : i - k = (i - (k + 1)) + 1 := by omega
        rw [this]
        simpa using hbb
      · intro j hj bb' hbb'
        match j, hbb' with
        | 0, hbb' =>
          intro hc
          have hbb0 : b = bb' := by simpa using hbb'
          exact hmatch (hbb0 ▸ hc)
        | j' + 1, hbb' =>
          exact hmin j' (by omega) bb' (by simpa using hbb')

/-- The enum-filter removal, generalized over the enumeration offset. -/
lemma removeBonusAtIndexFrom_eq_eraseIdx :
    ∀ (l : List ActiveBonus) (n i : ℕ),
      (((l.enumFrom n).filter (fun p => p.1 ≠ n + i)).map fun p => p.2) = l.eraseIdx i := by
  intro l
  induction l with
  | nil => intro n i; rfl
  | cons hd tl ih =>
    intro n i
    rw [List.enumFrom_cons]
    cases i with
    | zero =>
      simp only [List.eraseIdx, List.filter_cons]
      rw [if_neg (by simp)]
      have hall : (tl.enumFrom (n + 1)).filter (fun p => p.1 ≠ n + 0) =
          tl.enumFrom (n + 1) := by
        rw [List.filter_eq_self]
        intro p hp
        have hge : n + 1 ≤ p.1 := (List.mem_enumFrom hp).1
        simp only [decide_eq_true_eq]
        omega
      rw [hall]
      exact List.enumFrom_map_snd (n + 1) tl
    | succ j =>
      simp only [List.eraseIdx, List.filter_cons]
      rw [if_pos (by simp only [decide_eq_true_eq]; omega)]
      rw [List.map_cons]
      have harith : n + (j + 1) = (n + 1) + j := by omega
      rw [harith]
      rw [ih (n + 1) j]

/-- The enum-filter removal is index erasure. -/
lemma removeBonusAtIndex_eq_eraseIdx (l : List ActiveBonus) (i : ℕ) :
    removeBonusAtIndex l i = l.eraseIdx i := by
  unfold removeBonusAtIndex
  have := removeBonusAtIndexFrom_eq_eraseIdx l 0 i
  simpa [List.enum] using this

/-- Reduction of a tick whose only event is a collision with a registered
bonus: the explicit next state. -/
lemma tick_knownBonus_eq
    (W H : ℤ) (env : TickRand) (d : Direction) (s : GameState)
    (h : Position) (rest : List Position) (i : ℕ) (b : ActiveBonus)
    (config : BonusConfig)
    (hrun : s.isRunning = true) (hover : s.isGameOver = false)
    (hsnake : s.snake = h :: rest)
    (hcol : checkCollision W H
      ⟨h.x + (DIRECTIONS d).x, h.y + (DIRECTIONS d).y⟩ s.snake = false)
    (hnofood : ¬ (h.x + (DIRECTIONS d).x = s.food.x ∧ h.y + (DIRECTIONS d).y = s.food.y))
    (hfind : findCollidedBonus s.bonusState.activeBonuses
      ⟨h.x + (DIRECTIONS d).x, h.y + (DIRECTIONS d).y⟩ = Option.some i)
    (hget : s.bonusState.activeBonuses.get? i = Option.some b)
    (hknown : registryGet b.configType = Option.some config) :
    tick W H env d s = Option.some
      { s with
        snake :=
          if (false || config.growsSnake) = true then
            (if config.effect.type = BonusEffectType.shrink ∧ config.effect.value.getD 0 ≠ 0
              then applyShrinkEffect
                ((⟨h.x + (DIRECTIONS d).x, h.y + (DIRECTIONS d).y⟩ : Position) :: s.snake)
                (config.effect.value.getD 0)
              else (⟨h.x + (DIRECTIONS d).x, h.y + (DIRECTIONS d).y⟩ : Position) :: s.snake)
          else
            (if config.effect.type = BonusEffectType.shrink ∧ config.effect.value.getD 0 ≠ 0
              then applyShrinkEffect
                ((⟨h.x + (DIRECTIONS d).x, h.y + (DIRECTIONS d).y⟩ : Position) :: s.snake)
                (config.effect.value.getD 0)
              else (⟨h.x + (DIRECTIONS d).x, h.y + (DIRECTIONS d).y⟩ : Position) :: s.snake).dropLast
        bonusState :=
          { activeBonuses := removeBonusAtIndex s.bonusState.activeBonuses i
            eggsEatenSince := setKey s.bonusState.eggsEatenSince b.configType 0
            nextSpawnAt := setKey s.bonusState.nextSpawnAt b.configType
              (getRandomRespawnThreshold env.respawnRoll config) }
        score := s.score + b.points
        direction := d } := by
  rw [hsnake] at hcol
  unfold tick
  rw [hsnake]
  simp only [hrun, hover]
  rw [if_neg (by simp)]
  rw [if_neg (by simp [hcol])]
  rw [← hsnake]
  rw [if_neg hnofood]
  simp only [Option.map_some', hfind, handleBonusCollision, hget, hknown]

/-- C10: when the candidate head overlaps active bonuses (and neither the
move is fatal nor the food is hit), only the first instance in list order
is scored and removed; every earlier instance does not match the head,
and every other instance survives into the removal-by-index result, whose
length drops by exactly one. -/
theorem tick_single_bonus_collection
    (W H : ℤ) (env : TickRand) (d : Direction) (s : GameState)
    (h : Position) (rest : List Position) (i : ℕ) (b : ActiveBonus)
    (config : BonusConfig)
    (hrun : s.isRunning = true) (hover : s.isGameOver = false)
    (hsnake : s.snake = h :: rest)
    (hcol : checkCollision W H
      ⟨h.x + (DIRECTIONS d).x, h.y + (DIRECTIONS d).y⟩ s.snake = false)
    (hnofood : ¬ (h.x + (DIRECTIONS d).x = s.food.x ∧ h.y + (DIRECTIONS d).y = s.food.y))
    (hfind : findCollidedBonus s.bonusState.activeBonuses
      ⟨h.x + (DIRECTIONS d).x, h.y + (DIRECTIONS d).y⟩ = Option.some i)
    (hget : s.bonusState.activeBonuses.get? i = Option.some b)
    (hknown : registryGet b.configType = Option.some config) :
    ∃ s', tick W H env d s = Option.some s' ∧
      s'.score = s.score + b.points ∧
      s'.bonusState.activeBonuses = removeBonusAtIndex s.bonusState.activeBonuses i ∧
      s'.food = s.food ∧
      (∀ j, j < i → ∀ bb, s.bonusState.activeBonuses.get? j = Option.some bb →
        ¬ (bb.position.x = h.x + (DIRECTIONS d).x ∧
           bb.position.y = h.y + (DIRECTIONS d).y)) ∧
      (∀ j bb, s.bonusState.activeBonuses.get? j = Option.some bb → j ≠ i →
        bb ∈ s'.bonusState.activeBonuses) ∧
      s'.bonusState.activeBonuses.length + 1 = s.bonusState.activeBonuses.length := by
  have hlen : i < s.bonusState.activeBonuses.length :=
    (List.get?_eq_some.mp hget).choose
  have hspec := findCollidedBonusGo_spec
    ⟨h.x + (DIRECTIONS d).x, h.y + (DIRECTIONS d).y⟩ s.bonusState.activeBonuses 0 i hfind
  have htick := tick_knownBonus_eq W H env d s h rest i b config
    hrun hover hsnake hcol hnofood hfind hget hknown
  refine ⟨_, htick, by simp, by simp, by simp, ?_, ?_, ?_⟩
  · intro j hj bb hbb
    exact hspec.2.2 j (by omega) bb hbb
  · intro j bb hbb hji
    simp only [removeBonusAtIndex_eq_eraseIdx]
    have hjlen : j < s.bonusState.activeBonuses.length :=
      (List.get?_eq_some.mp hbb).choose
    rw [List.eraseIdx_eq_take_drop_succ]
    rcases Nat.lt_or_ge j i with hlt | hge
    · refine List.mem_append_left _ ?_
      have : (s.bonusState.activeBonuses.take i).get? j = Option.some bb := by
        rw [List.get?_eq_getElem?, List.getElem?_take]
        rw [if_pos hlt]
        rw [← List.get?_eq_getElem?]
        exact hbb
      exact List.mem_iff_get?.mpr ⟨j, this⟩
    · have hgt : i < j := lt_of_le_of_ne hge (Ne.symm hji)
      refine List.mem_append_right _ ?_
      have : (s.bonusState.activeBonuses.drop (i + 1)).get? (j - (i + 1)) =
          Option.some bb := by
        rw [List.get?_eq_getElem?, List.getElem?_drop]
        rw [show i + 1 + (j - (i + 1)) = j by omega]
        rw [← List.get?_eq_getElem?]
        exact hbb
      exact List.mem_iff_get?.mpr ⟨j - (i + 1), this⟩
  · simp only [removeBonusAtIndex_eq_eraseIdx]
    rw [List.length_eraseIdx]
    simp only [hlen, if_pos]
    omega

/-- C10 witness: two active bonuses share the head's destination cell;
only the first (a dragon egg) is scored and removed, the second survives
untouched. -/
theorem tick_single_bonus_collection_witness :
    ∃ s', tick 20 20 ⟨fun _ => ⟨0, 0⟩, fun _ => ⟨0, fun _ => ⟨0, 0⟩, 0⟩, 0, 3⟩
        Direction.RIGHT
        { snake := [⟨10, 10⟩, ⟨9, 10⟩, ⟨8, 10⟩], food := ⟨0, 0⟩,
          bonusState := ⟨[⟨"dragon-egg", ⟨11, 10⟩, 12, 9000⟩,
            ⟨"golden-apple", ⟨11, 10⟩, 6, 4000⟩],
            [("dragon-egg", 2)], [("dragon-egg", 5)]⟩,
          direction := Direction.RIGHT, nextDirection := Direction.RIGHT,
          score := 4, isRunning := true, isGameOver := false } = Option.some s' ∧
      s'.score = 4 + 12 ∧
      s'.bonusState.activeBonuses =
        removeBonusAtIndex [⟨"dragon-egg", ⟨11, 10⟩, 12, 9000⟩,
          ⟨"golden-apple", ⟨11, 10⟩, 6, 4000⟩] 0 ∧
      s'.food = ⟨0, 0⟩ ∧
      (∀ j, j < 0 → ∀ bb,
        ([⟨"dragon-egg", ⟨11, 10⟩, 12, 9000⟩,
          ⟨"golden-apple", ⟨11, 10⟩, 6, 4000⟩] : List ActiveBonus).get? j =
            Option.some bb →
        ¬ (bb.position.x = (10 : ℤ) + 1 ∧ bb.position.y = (10 : ℤ) + 0)) ∧
      (∀ j bb,
        ([⟨"dragon-egg", ⟨11, 10⟩, 12, 9000⟩,
          ⟨"golden-apple", ⟨11, 10⟩, 6, 4000⟩] : List ActiveBonus).get? j =
            Option.some bb → j ≠ 0 →
        bb ∈ s'.bonusState.activeBonuses) ∧
      s'.bonusState.activeBonuses.length + 1 = 2 := by
  have := tick_single_bonus_collection 20 20
    ⟨fun _ => ⟨0, 0⟩, fun _ => ⟨0, fun _ => ⟨0, 0⟩, 0⟩, 0, 3⟩ Direction.RIGHT
    { snake := [⟨10, 10⟩, ⟨9, 10⟩, ⟨8, 10⟩], food := ⟨0, 0⟩,
      bonusState := ⟨[⟨"dragon-egg", ⟨11, 10⟩, 12, 9000⟩,
        ⟨"golden-apple", ⟨11, 10⟩, 6, 4000⟩],
        [("dragon-egg", 2)], [("dragon-egg", 5)]⟩,
      direction := Direction.RIGHT, nextDirection := Direction.RIGHT,
      score := 4, isRunning := true, isGameOver := false }
    ⟨10, 10⟩ [⟨9, 10⟩, ⟨8, 10⟩] 0 ⟨"dragon-egg", ⟨11, 10⟩, 12, 9000⟩
    DRAGON_EGG_CONFIG rfl rfl rfl (by decide) (by decide) (by decide) (by decide)
    (by decide)
  simpa [DIRECTIONS] using this

/-! ### C2 — the shrink-suppression boundary -/

/-- Length behavior of `applyShrinkEffect`: the pop loop runs exactly when
the length exceeds `shrinkAmount + 2`, removing `shrinkAmount` cells. -/
lemma applyShrinkEffect_length (snake : List Position) (N : ℤ) (hN : 0 < N) :
    ((applyShrinkEffect snake N).length : ℤ) =
      if (snake.length : ℤ) > N + 2 then (snake.length : ℤ) - N
      else (snake.length : ℤ) := by
  unfold applyShrinkEffect
  by_cases hlen : (snake.length : ℤ) > N + 3 - 1
  · rw [if_pos hlen]
    have hcond : (snake.length : ℤ) > N + 2 := by omega
    rw [if_pos hcond]
    have htn : N.toNat ≤ snake.length := by omega
    rw [List.length_take]
    omega
  · rw [if_neg hlen]
    have hcond : ¬ (snake.length : ℤ) > N + 2 := by omega
    rw [if_neg hcond]

/-- C2 counterexample: a snake of pre-move length 7 collects the
shrink-by-5 egg; the tick leaves it at length 2 — neither unchanged (7)
nor within the floor (≥ 3) — while the 3 points are still awarded. -/
theorem shrink_floor_counterexample :
    (tick 20 20 ⟨fun _ => ⟨0, 0⟩, fun _ => ⟨0, fun _ => ⟨0, 0⟩, 0⟩, 0, 3⟩
        Direction.RIGHT
        { snake := [⟨10, 10⟩, ⟨9, 10⟩, ⟨8, 10⟩, ⟨7, 10⟩, ⟨6, 10⟩, ⟨5, 10⟩, ⟨4, 10⟩],
          food := ⟨0, 0⟩,
          bonusState := ⟨[⟨"shrink-egg", ⟨11, 10⟩, 3, 15000⟩],
            [("shrink-egg", 0)], [("shrink-egg", 10)]⟩,
          direction := Direction.RIGHT, nextDirection := Direction.RIGHT,
          score := 0, isRunning := true, isGameOver := false }).map
      (fun s => (s.snake.length, s.score)) = Option.some (2, 3) := by
  decide

/-- C2 amended: collecting a shrink-by-`N` bonus (no growth, no regular
collectible on the tick) always awards the instance's points; the length
is unchanged when the pre-move length is at most `N + 1` (the code's
suppression guard compares the post-prepend length against
`N + floor - 1`), and otherwise exactly `N` tail cells are removed,
leaving `pre-move length - N`, which can be as low as 2 (at pre-move
length `N + 2`) and is otherwise at least the floor of 3. -/
theorem shrink_collision_policy
    (W H : ℤ) (env : TickRand) (d : Direction) (s : GameState)
    (h : Position) (rest : List Position) (i : ℕ) (b : ActiveBonus)
    (config : BonusConfig) (N : ℤ)
    (hrun : s.isRunning = true) (hover : s.isGameOver = false)
    (hsnake : s.snake = h :: rest)
    (hcol : checkCollision W H
      ⟨h.x + (DIRECTIONS d).x, h.y + (DIRECTIONS d).y⟩ s.snake = false)
    (hnofood : ¬ (h.x + (DIRECTIONS d).x = s.food.x ∧ h.y + (DIRECTIONS d).y = s.food.y))
    (hfind : findCollidedBonus s.bonusState.activeBonuses
      ⟨h.x + (DIRECTIONS d).x, h.y + (DIRECTIONS d).y⟩ = Option.some i)
    (hget : s.bonusState.activeBonuses.get? i = Option.some b)
    (hknown : registryGet b.configType = Option.some config)
    (heff : config.effect.type = BonusEffectType.shrink)
    (hval : config.effect.value = Option.some N)
    (hN : 0 < N)
    (hgrow : config.growsSnake = false)
    (hlen3 : 3 ≤ s.snake.length) :
    ∃ s', tick W H env d s = Option.some s' ∧
      s'.score = s.score + b.points ∧
      ((s.snake.length : ℤ) ≤ N + 1 → s'.snake.length = s.snake.length) ∧
      ((N + 2 : ℤ) ≤ (s.snake.length : ℤ) →
        (s'.snake.length : ℤ) = (s.snake.length : ℤ) - N) ∧
      2 ≤ s'.snake.length := by
  have htick := tick_knownBonus_eq W H env d s h rest i b config
    hrun hover hsnake hcol hnofood hfind hget hknown
  have hlen := applyShrinkEffect_length
    ((⟨h.x + (DIRECTIONS d).x, h.y + (DIRECTIONS d).y⟩ : Position) :: s.snake) N hN
  have hdrop := List.length_dropLast (applyShrinkEffect
    ((⟨h.x + (DIRECTIONS d).x, h.y + (DIRECTIONS d).y⟩ : Position) :: s.snake) N)
  simp only [List.length_cons] at hlen
  refine ⟨_, htick, by simp, ?_, ?_, ?_⟩
  all_goals
    simp only [hgrow, heff, hval, Option.getD_some, Bool.false_or,
      Bool.false_eq_true, if_false]
  all_goals
    rw [if_pos ⟨trivial, hN.ne.symm⟩]
  · intro hsmall
    rw [if_neg (by push_cast; omega)] at hlen
    omega
  · intro hbig
    rw [if_pos (by push_cast; omega)] at hlen
    omega
  · by_cases hc : ((s.snake.length + 1 : ℕ) : ℤ) > N + 2
    · rw [if_pos hc] at hlen
      omega
    · rw [if_neg hc] at hlen
      omega

/-- C2 witness (amended claim, Scenario B): a length-5 snake collects the
shrink-by-5 egg — the shrink is suppressed, the length stays 5 and the
instance's points are added. -/
theorem shrink_collision_policy_witness :
    ∃ s', tick 20 20 ⟨fun _ => ⟨0, 0⟩, fun _ => ⟨0, fun _ => ⟨0, 0⟩, 0⟩, 0, 3⟩
        Direction.RIGHT
        { snake := [⟨10, 10⟩, ⟨9, 10⟩, ⟨8, 10⟩, ⟨7, 10⟩, ⟨6, 10⟩], food := ⟨0, 0⟩,
          bonusState := ⟨[⟨"shrink-egg", ⟨11, 10⟩, 4, 15000⟩],
            [("shrink-egg", 0)], [("shrink-egg", 10)]⟩,
          direction := Direction.RIGHT, nextDirection := Direction.RIGHT,
          score := 0, isRunning := true, isGameOver := false } = Option.some s' ∧
      s'.score = 0 + 4 ∧
      (((5 : ℕ) : ℤ) ≤ 5 + 1 → s'.snake.length = 5) ∧
      (((5 : ℤ) + 2 ≤ ((5 : ℕ) : ℤ)) → (s'.snake.length : ℤ) = ((5 : ℕ) : ℤ) - 5) ∧
      2 ≤ s'.snake.length := by
  have := shrink_collision_policy 20 20
    ⟨fun _ => ⟨0, 0⟩, fun _ => ⟨0, fun _ => ⟨0, 0⟩, 0⟩, 0, 3⟩ Direction.RIGHT
    { snake := [⟨10, 10⟩, ⟨9, 10⟩, ⟨8, 10⟩, ⟨7, 10⟩, ⟨6, 10⟩], food := ⟨0, 0⟩,
      bonusState := ⟨[⟨"shrink-egg", ⟨11, 10⟩, 4, 15000⟩],
        [("shrink-egg", 0)], [("shrink-egg", 10)]⟩,
      direction := Direction.RIGHT, nextDirection := Direction.RIGHT,
      score := 0, isRunning := true, isGameOver := false }
    ⟨10, 10⟩ [⟨9, 10⟩, ⟨8, 10⟩, ⟨7, 10⟩, ⟨6, 10⟩] 0
    ⟨"shrink-egg", ⟨11, 10⟩, 4, 15000⟩ SHRINK_EGG_CONFIG 5
    rfl rfl rfl (by decide) (by decide) (by decide) (by decide) (by decide)
    (by decide) (by decide) (by decide) (by decide) (by decide)
  simpa using this

/-! ### C7 — same-pass spawn placement (demonstration of the collision) -/

/-- C7: `trySpawnBonuses` rebuilds its exclusion list from the
pre-pass active set only, so two types spawning in the same resolution
pass can land on the same cell: with both the dragon egg and the shrink
egg eligible and a draw stream that repeats `(0,0)`, the pass returns two
instances at the identical position `(0,0)`. -/
theorem same_pass_spawn_overlap :
    (trySpawnBonuses (fun _ => ⟨0, fun _ => ⟨0, 0⟩, 0⟩) 3 getSpawnableBonuses
        ⟨[], [("dragon-egg", 6), ("shrink-egg", 11), ("golden-apple", 0),
            ("crystal-gem", 0)],
          [("dragon-egg", 5), ("shrink-egg", 10), ("golden-apple", 10),
            ("crystal-gem", 20)]⟩
        [⟨5, 5⟩] ⟨6, 6⟩).map
      (fun l => l.map (fun b => (b.configType, b.position))) =
    Option.some [("dragon-egg", ⟨0, 0⟩), ("shrink-egg", ⟨0, 0⟩)] := by
  decide

/-! ### C8 — the 100 ms bonus-timer advance -/

/-- Pointwise action of one timer advance on a single active bonus:
untouched when its type is unregistered or permanent, else 100 ms is
deducted, and the instance disappears (`none`) when the remaining time
reaches zero or less. -/
def advanceBonus (bb : ActiveBonus) : Option ActiveBonus :=
  match registryGet bb.configType with
  | Option.none => Option.some bb
  | Option.some config =>
    if config.lifetime = 0 then Option.some bb
    else if bb.timeRemaining - 100 ≤ 0 then Option.none
    else Option.some { bb with timeRemaining := bb.timeRemaining - 100 }

/-- The surviving (`updated`) list of `processExpiredBonuses` is the
pointwise `advanceBonus` image. -/
lemma processExpired_fst (bonuses : List ActiveBonus) :
    (processExpiredBonuses bonuses).1 = bonuses.filterMap advanceBonus := by
  induction bonuses with
  | nil => rfl
  | cons bb rest ih =>
    unfold processExpiredBonuses
    rw [List.filterMap_cons]
    rcases hreg : registryGet bb.configType with _ | config
    · simp [advanceBonus, hreg, ih]
    · by_cases hlife : config.lifetime = 0
      · simp [advanceBonus, hreg, hlife, ih]
      · by_cases hexp : bb.timeRemaining - 100 ≤ 0
        · simp [advanceBonus, hreg, hlife, hexp, ih]
        · simp [advanceBonus, hreg, hlife, hexp, ih]

/-- The `expired` list of `processExpiredBonuses` collects exactly the
registered, non-permanent bonuses whose time ran out, in order. -/
lemma processExpired_snd (bonuses : List ActiveBonus) :
    (processExpiredBonuses bonuses).2 = bonuses.filter
      (fun bb => (registryGet bb.configType).any
        (fun config => config.lifetime ≠ 0 ∧ bb.timeRemaining - 100 ≤ 0)) := by
  induction bonuses with
  | nil => rfl
  | cons bb rest ih =>
    unfold processExpiredBonuses
    rw [List.filter_cons]
    rcases hreg : registryGet bb.configType with _ | config
    · simp [hreg, ih]
    · by_cases hlife : config.lifetime = 0
      · simp [hreg, hlife, ih]
      · by_cases hexp : bb.timeRemaining - 100 ≤ 0
        · simp [hreg, hlife, hexp, ih]
        · simp [hreg, hlife, hexp, ih]

/-- One step of the reset fold of `resetExpiredBonusCounters`. -/
def resetStep (respawnRolls : ℕ → ℚ)
    (acc : List (String × ℤ) × List (String × ℤ)) (p : ℕ × ActiveBonus) :
    List (String × ℤ) × List (String × ℤ) :=
  match registryGet p.2.configType with
  | Option.none => acc
  | Option.some config =>
    (setKey acc.1 p.2.configType 0,
     setKey acc.2 p.2.configType (getRandomRespawnThreshold (respawnRolls p.1) config))

/-- The reset fold is a fold of `resetStep`. -/
lemma resetExpired_eq_foldl (respawnRolls : ℕ → ℚ) (expired : List ActiveBonus)
    (eggs next : List (String × ℤ)) :
    resetExpiredBonusCounters respawnRolls expired eggs next =
      (expired.enum).foldl (resetStep respawnRolls) (eggs, next) := by
  unfold resetExpiredBonusCounters resetStep
  rfl

/-- The post-reset property of an expired type: counter zeroed, threshold
inside its configured respawn range. -/
def ResetDone (t : String) (config : BonusConfig)
    (acc : List (String × ℤ) × List (String × ℤ)) : Prop :=
  lookupD acc.1 t = 0 ∧
    config.minRespawnAfterEggs ≤ lookupD acc.2 t ∧
    lookupD acc.2 t ≤ config.maxRespawnAfterEggs

lemma resetStep_preserves (respawnRolls : ℕ → ℚ) (t : String) (config : BonusConfig)
    (hv : ∀ i, ValidRoll (respawnRolls i))
    (hcfg : registryGet t = Option.some config)
    (hrange : config.minRespawnAfterEggs ≤ config.maxRespawnAfterEggs)
    (acc : List (String × ℤ) × List (String × ℤ)) (p : ℕ × ActiveBonus)
    (hP : ResetDone t config acc) :
    ResetDone t config (resetStep respawnRolls acc p) := by
  unfold resetStep
  rcases hreg : registryGet p.2.configType with _ | config2
  · exact hP
  · by_cases ht : p.2.configType = t
    · subst ht
      rw [hreg] at hcfg
      injection hcfg with hceq
      have hmem := getRandomRespawnThreshold_mem (respawnRolls p.1) config
        (hv p.1) hrange
      rw [hceq]
      exact ⟨lookupD_setKey_self _ _ _,
        by rw [lookupD_setKey_self]; exact hmem.1,
        by rw [lookupD_setKey_self]; exact hmem.2⟩
    · exact ⟨by rw [lookupD_setKey_other _ _ _ _ (fun hh => ht hh.symm)]; exact hP.1,
        by rw [lookupD_setKey_other _ _ _ _ (fun hh => ht hh.symm)]; exact hP.2.1,
        by rw [lookupD_setKey_other _ _ _ _ (fun hh => ht hh.symm)]; exact hP.2.2⟩

lemma resetFold_preserves (respawnRolls : ℕ → ℚ) (t : String) (config : BonusConfig)
    (hv : ∀ i, ValidRoll (respawnRolls i))
    (hcfg : registryGet t = Option.some config)
    (hrange : config.minRespawnAfterEggs ≤ config.maxRespawnAfterEggs) :
    ∀ (l : List (ℕ × ActiveBonus)) (acc : List (String × ℤ) × List (String × ℤ)),
      ResetDone t config acc →
      ResetDone t config (l.foldl (resetStep respawnRolls) acc) := by
  intro l
  induction l with
  | nil => intro acc hP; exact hP
  | cons p rest ih =>
    intro acc hP
    exact ih _ (resetStep_preserves respawnRolls t config hv hcfg hrange acc p hP)

lemma resetFold_establish (respawnRolls : ℕ → ℚ) (t : String) (config : BonusConfig)
    (hv : ∀ i, ValidRoll (respawnRolls i))
    (hcfg : registryGet t = Option.some config)
    (hrange : config.minRespawnAfterEggs ≤ config.maxRespawnAfterEggs) :
    ∀ (l : List (ℕ × ActiveBonus)) (acc : List (String × ℤ) × List (String × ℤ)),
      (∃ p ∈ l, p.2.configType = t) →
      ResetDone t config (l.foldl (resetStep respawnRolls) acc) := by
  intro l
  induction l with
  | nil => rintro acc ⟨p, hp, _⟩; exact absurd hp (List.not_mem_nil p)
  | cons q rest ih =>
    rintro acc ⟨p, hp, hpt⟩
    rcases List.mem_cons.mp hp with rfl | hprest
    · have hstep : ResetDone t config (resetStep respawnRolls acc p) := by
        unfold resetStep
        rw [hpt, hcfg]
        have hmem := getRandomRespawnThreshold_mem (respawnRolls p.1) config
          (hv p.1) hrange
        exact ⟨lookupD_setKey_self _ _ _,
          by rw [lookupD_setKey_self]; exact hmem.1,
          by rw [lookupD_setKey_self]; exact hmem.2⟩
      exact resetFold_preserves respawnRolls t config hv hcfg hrange rest _ hstep
    · exact ih _ ⟨p, hprest, hpt⟩

/-- Every list element appears in its enumeration with some index. -/
lemma exists_enumFrom_pair (b : ActiveBonus) :
    ∀ (l : List ActiveBonus) (n : ℕ), b ∈ l → ∃ j, (j, b) ∈ l.enumFrom n := by
  intro l
  induction l with
  | nil => intro n hb; exact absurd hb (List.not_mem_nil b)
  | cons hd tl ih =>
    intro n hb
    rw [List.enumFrom_cons]
    rcases List.mem_cons.mp hb with rfl | htl
    · exact ⟨n, List.mem_cons_self _ _⟩
    · obtain ⟨j, hj⟩ := ih (n + 1) htl
      exact ⟨j, List.mem_cons_of_mem _ hj⟩

/-- The scenario-E state: a single active dragon egg with its full
20000 ms lifetime remaining. -/
def scenarioEState : GameState :=
  { snake := [⟨10, 10⟩, ⟨9, 10⟩, ⟨8, 10⟩], food := ⟨0, 0⟩,
    bonusState := ⟨[⟨"dragon-egg", ⟨3, 4⟩, 12, 20000⟩],
      [("dragon-egg", 3)], [("dragon-egg", 5)]⟩,
    direction := Direction.RIGHT, nextDirection := Direction.RIGHT,
    score := 0, isRunning := true, isGameOver := false }

set_option maxRecDepth 10000 in
/-- C8: each bonus-timer advance deducts 100 ms from every active
instance whose registered type has a nonzero lifetime, removing an
instance exactly when its remaining time reaches `≤ 0`, in which case its
type's event counter is zeroed and a fresh respawn threshold is sampled
inside `[minRespawnAfterEggs, maxRespawnAfterEggs]`; concretely, a
20000 ms dragon egg still survives (at 100 ms) after 199 advances and is
gone after the 200th, with its counter reset to 0. -/
theorem bonus_timer_advance_spec :
    (∀ (rolls : ℕ → ℚ) (s : GameState) (b : ActiveBonus) (config : BonusConfig),
      (∀ i, ValidRoll (rolls i)) →
      config.minRespawnAfterEggs ≤ config.maxRespawnAfterEggs →
      b ∈ s.bonusState.activeBonuses →
      registryGet b.configType = Option.some config →
      config.lifetime ≠ 0 →
      ((0 < b.timeRemaining - 100 →
          { b with timeRemaining := b.timeRemaining - 100 } ∈
            (bonusTimerStep rolls s).bonusState.activeBonuses) ∧
        (b.timeRemaining - 100 ≤ 0 →
          advanceBonus b = Option.none ∧
          lookupD (bonusTimerStep rolls s).bonusState.eggsEatenSince b.configType = 0 ∧
          config.minRespawnAfterEggs ≤
            lookupD (bonusTimerStep rolls s).bonusState.nextSpawnAt b.configType ∧
          lookupD (bonusTimerStep rolls s).bonusState.nextSpawnAt b.configType ≤
            config.maxRespawnAfterEggs))) ∧
    (∀ (rolls : ℕ → ℚ) (s : GameState),
      (bonusTimerStep rolls s).bonusState.activeBonuses =
        s.bonusState.activeBonuses.filterMap advanceBonus) ∧
    ((bonusTimerStep (fun _ => 0))^[199] scenarioEState).bonusState.activeBonuses =
      [⟨"dragon-egg", ⟨3, 4⟩, 12, 100⟩] ∧
    ((bonusTimerStep (fun _ => 0))^[200] scenarioEState).bonusState.activeBonuses = [] ∧
    lookupD ((bonusTimerStep (fun _ => 0))^[200]
      scenarioEState).bonusState.eggsEatenSince "dragon-egg" = 0 := by
  refine ⟨?_, ?_, by decide, by decide, by decide⟩
  · intro rolls s b config hv hrange hb hreg hlife
    constructor
    · intro htime
      show _ ∈ (processExpiredBonuses s.bonusState.activeBonuses).1
      rw [processExpired_fst]
      refine List.mem_filterMap.mpr ⟨b, hb, ?_⟩
      unfold advanceBonus
      simp only [hreg]
      rw [if_neg hlife, if_neg (by omega : ¬ b.timeRemaining - 100 ≤ 0)]
    · intro htime
      have hadv : advanceBonus b = Option.none := by
        unfold advanceBonus
        simp only [hreg]
        rw [if_neg hlife, if_pos htime]
      refine ⟨hadv, ?_⟩
      have hexp : b ∈ (processExpiredBonuses s.bonusState.activeBonuses).2 := by
        rw [processExpired_snd]
        refine List.mem_filter.mpr ⟨hb, ?_⟩
        rw [hreg]
        simp only [Option.any_some, decide_eq_true_eq]
        exact ⟨hlife, htime⟩
      obtain ⟨j, hj⟩ := exists_enumFrom_pair b
        (processExpiredBonuses s.bonusState.activeBonuses).2 0 hexp
      have hdone : ResetDone b.configType config
          (resetExpiredBonusCounters rolls
            (processExpiredBonuses s.bonusState.activeBonuses).2
            s.bonusState.eggsEatenSince s.bonusState.nextSpawnAt) := by
        rw [resetExpired_eq_foldl]
        exact resetFold_establish rolls b.configType config hv hreg hrange _ _
          ⟨(j, b), hj, rfl⟩
      exact hdone
  · intro rolls s
    show (processExpiredBonuses s.bonusState.activeBonuses).1 = _
    rw [processExpired_fst]

/-- C8 witness: in the scenario-E state the dragon egg survives the first
advance at 19900 ms; an instance at 100 ms expires, with the counter
zeroed and the new threshold inside the dragon egg's `[5, 10]` respawn
range. -/
theorem bonus_timer_advance_spec_witness :
    ((⟨"dragon-egg", ⟨3, 4⟩, 12, 19900⟩ : ActiveBonus) ∈
      (bonusTimerStep (fun _ => 0) scenarioEState).bonusState.activeBonuses) ∧
    (advanceBonus ⟨"dragon-egg", ⟨3, 4⟩, 12, 100⟩ = Option.none ∧
      lookupD (bonusTimerStep (fun _ => 0)
        { scenarioEState with bonusState :=
            ⟨[⟨"dragon-egg", ⟨3, 4⟩, 12, 100⟩],
              [("dragon-egg", 3)], [("dragon-egg", 5)]⟩ }).bonusState.eggsEatenSince
        "dragon-egg" = 0 ∧
      (5 : ℤ) ≤ lookupD (bonusTimerStep (fun _ => 0)
        { scenarioEState with bonusState :=
            ⟨[⟨"dragon-egg", ⟨3, 4⟩, 12, 100⟩],
              [("dragon-egg", 3)], [("dragon-egg", 5)]⟩ }).bonusState.nextSpawnAt
        "dragon-egg" ∧
      lookupD (bonusTimerStep (fun _ => 0)
        { scenarioEState with bonusState :=
            ⟨[⟨"dragon-egg", ⟨3, 4⟩, 12, 100⟩],
              [("dragon-egg", 3)], [("dragon-egg", 5)]⟩ }).bonusState.nextSpawnAt
        "dragon-egg" ≤ (10 : ℤ)) := by
  constructor
  · exact (bonus_timer_advance_spec.1 (fun _ => 0) scenarioEState
      ⟨"dragon-egg", ⟨3, 4⟩, 12, 20000⟩ DRAGON_EGG_CONFIG
      (fun _ => by constructor <;> norm_num) (by decide) (by decide) (by decide)
      (by decide)).1 (by decide)
  · exact (bonus_timer_advance_spec.1 (fun _ => 0)
      { scenarioEState with bonusState :=
          ⟨[⟨"dragon-egg", ⟨3, 4⟩, 12, 100⟩],
            [("dragon-egg", 3)], [("dragon-egg", 5)]⟩ }
      ⟨"dragon-egg", ⟨3, 4⟩, 12, 100⟩ DRAGON_EGG_CONFIG
      (fun _ => by constructor <;> norm_num) (by decide) (by decide) (by decide)
      (by decide)).2 (by decide)

/-! ### C6 — spawn gating -/

/-- The configs that spawn in a pass are exactly those passing
`spawnCond`, in list order. -/
lemma trySpawnGo_types (rands : ℕ → SpawnRand) (fuel : ℕ)
    (bonusState : BonusManagerState) (snake : List Position) (food : Position) :
    ∀ (cfgs : List BonusConfig) (i : ℕ) (result : List ActiveBonus),
      trySpawnGo rands fuel bonusState snake food i cfgs = Option.some result →
      result.map (fun b => b.configType) =
        ((cfgs.enumFrom i).filter
          (fun p => decide (spawnCond bonusState (rands p.1) p.2))).map
          (fun p => p.2.type) := by
  intro cfgs
  induction cfgs with
  | nil =>
    intro i result h
    obtain rfl : result = [] := by
      simpa [trySpawnGo] using h.symm
    simp
  | cons config rest ih =>
    intro i result h
    rw [List.enumFrom_cons, List.filter_cons]
    unfold trySpawnGo at h
    by_cases hcond : spawnCond bonusState (rands i) config
    · rw [if_pos hcond] at h
      rcases hpos : getRandomPosition fuel (rands i).posDraws
          (snake ++ [food] ++ getBonusPositions bonusState.activeBonuses) with _ | pos
      · rw [hpos] at h
        exact absurd h (by simp)
      · rw [hpos] at h
        rcases hrest : trySpawnGo rands fuel bonusState snake food (i + 1) rest with _ | r2
        · rw [hrest] at h
          exact absurd h (by simp)
        · rw [hrest] at h
          simp only [Option.map_some'] at h
          obtain rfl : createActiveBonus config pos (rands i).pointsRoll :: r2 = result := by
            injection h
          rw [if_pos (by simpa using hcond)]
          simp only [List.map_cons]
          exact congrArg (List.cons config.type) (ih (i + 1) r2 hrest)
    · rw [if_neg hcond] at h
      rw [if_neg (by simpa using hcond)]
      exact ih (i + 1) result h

/-- Every instance created by a pass comes from some config of the pass
list, with its gating condition true, its position off the exclusion
list, its points from its own draw, and its timer at full lifetime. -/
lemma trySpawnGo_mem_spec (rands : ℕ → SpawnRand) (fuel : ℕ)
    (bonusState : BonusManagerState) (snake : List Position) (food : Position) :
    ∀ (cfgs : List BonusConfig) (i : ℕ) (result : List ActiveBonus),
      trySpawnGo rands fuel bonusState snake food i cfgs = Option.some result →
      ∀ b ∈ result, ∃ j config, cfgs.get? j = Option.some config ∧
        b.configType = config.type ∧
        spawnCond bonusState (rands (i + j)) config ∧
        b.position ∉ snake ++ [food] ++ getBonusPositions bonusState.activeBonuses ∧
        b.timeRemaining = config.lifetime := by
  intro cfgs
  induction cfgs with
  | nil =>
    intro i result h b hb
    obtain rfl : result = [] := by simpa [trySpawnGo] using h.symm
    exact absurd hb (List.not_mem_nil b)
  | cons config rest ih =>
    intro i result h b hb
    unfold trySpawnGo at h
    by_cases hcond : spawnCond bonusState (rands i) config
    · rw [if_pos hcond] at h
      rcases hpos : getRandomPosition fuel (rands i).posDraws
          (snake ++ [food] ++ getBonusPositions bonusState.activeBonuses) with _ | pos
      · rw [hpos] at h
        exact absurd h (by simp)
      · rw [hpos] at h
        rcases hrest : trySpawnGo rands fuel bonusState snake food (i + 1) rest with _ | r2
        · rw [hrest] at h
          exact absurd h (by simp)
        · rw [hrest] at h
          simp only [Option.map_some'] at h
          obtain rfl : createActiveBonus config pos (rands i).pointsRoll :: r2 = result := by
            injection h
          rcases List.mem_cons.mp hb with rfl | hb2
          · exact ⟨0, config, by simp, rfl, by simpa using hcond,
              getRandomPosition_not_mem hpos, rfl⟩
          · obtain ⟨j, config2, hj, hbt, hc, hp, ht⟩ := ih (i + 1) r2 hrest b hb2
            exact ⟨j + 1, config2, by simpa using hj, hbt,
              by rw [show i + (j + 1) = i + 1 + j by omega]; exact hc, hp, ht⟩
    · rw [if_neg hcond] at h
      obtain ⟨j, config2, hj, hbt, hc, hp, ht⟩ := ih (i + 1) result h b hb
      exact ⟨j + 1, config2, by simpa using hj, hbt,
        by rw [show i + (j + 1) = i + 1 + j by omega]; exact hc, hp, ht⟩

/-- Membership in an enumeration is indexed lookup. -/
lemma enumFrom_pair_iff {α : Type} :
    ∀ (l : List α) (n j : ℕ) (c : α),
      (j, c) ∈ l.enumFrom n ↔ (n ≤ j ∧ l.get? (j - n) = Option.some c) := by
  intro l
  induction l with
  | nil => intro n j c; simp
  | cons hd tl ih =>
    intro n j c
    rw [List.enumFrom_cons]
    constructor
    · intro hmem
      rcases List.mem_cons.mp hmem with heq | htl
      · obtain ⟨rfl, rfl⟩ : j = n ∧ c = hd := by
          have h1 := congrArg Prod.fst heq
          have h2 := congrArg Prod.snd heq
          exact ⟨h1, h2⟩
        simp
      · obtain ⟨hn, hget⟩ := (ih (n + 1) j c).mp htl
        refine ⟨by omega, ?_⟩
        rw [show j - n = (j - (n + 1)) + 1 by omega]
        simpa using hget
    · rintro ⟨hn, hget⟩
      rcases Nat.eq_or_lt_of_le hn with rfl | hlt
      · simp only [Nat.sub_self] at hget
        obtain rfl : hd = c := by simpa using hget
        exact List.mem_cons_self _ _
      · refine List.mem_cons_of_mem _ ((ih (n + 1) j c).mpr ⟨by omega, ?_⟩)
        rw [show j - (n + 1) = (j - n) - 1 by omega]
        rcases hd2 : j - n with _ | k
        · omega
        · rw [hd2] at hget
          simpa using hget

/-- A duplicate-free list keeps at most one element equal to `t`. -/
lemma nodup_filter_eq_length_le_one {α : Type} [DecidableEq α]
    (l : List α) (t : α) (h : l.Nodup) :
    (l.filter (fun x => x = t)).length ≤ 1 := by
  rcases hf : l.filter (fun x => x = t) with _ | ⟨a, _ | ⟨b, rest⟩⟩
  · simp
  · simp
  · exfalso
    have hnd := h.filter (fun x => decide (x = t))
    rw [hf] at hnd
    have ha : a = t := by
      have : a ∈ l.filter (fun x => x = t) := by rw [hf]; simp
      simpa using (List.mem_filter.mp this).2
    have hb : b = t := by
      have : b ∈ l.filter (fun x => x = t) := by rw [hf]; simp
      simpa using (List.mem_filter.mp this).2
    have : a ∉ b :: rest := (List.nodup_cons.mp hnd).1
    exact this (by rw [ha, hb]; exact List.mem_cons_self _ _)

/-- The enumerated types of a pass list are just its types. -/
lemma enumFrom_map_type :
    ∀ (l : List BonusConfig) (n : ℕ),
      (l.enumFrom n).map (fun p => p.2.type) = l.map (fun c => c.type) := by
  intro l
  induction l with
  | nil => intro n; rfl
  | cons hd tl ih =>
    intro n
    rw [List.enumFrom_cons, List.map_cons, List.map_cons, ih]

/-- C6: in a spawn resolution pass over a duplicate-free config list, a
config spawns an instance iff its gating condition holds (counter at
threshold, instance cap not reached, roll within `spawnChance`); the
engine's pass list is the registry in strictly descending priority order
(ties broken by registration order — here there are no ties); and a
config with `spawnChance = 1`, a valid roll, its counter at threshold,
no active instance and a positive cap spawns exactly one instance. -/
theorem trySpawn_gating_spec :
    (∀ (rands : ℕ → SpawnRand) (fuel : ℕ) (bonusState : BonusManagerState)
      (snake : List Position) (food : Position) (cfgs : List BonusConfig)
      (result : List ActiveBonus) (i : ℕ) (config : BonusConfig),
      trySpawnBonuses rands fuel cfgs bonusState snake food = Option.some result →
      cfgs.get? i = Option.some config →
      (cfgs.map (fun c => c.type)).Nodup →
      ((∃ b ∈ result, b.configType = config.type) ↔
        spawnCond bonusState (rands i) config)) ∧
    (getSpawnableBonuses =
      [DRAGON_EGG_CONFIG, SHRINK_EGG_CONFIG, GOLDEN_APPLE_CONFIG, CRYSTAL_GEM_CONFIG] ∧
      getSpawnableBonuses.Pairwise (fun a b => b.priority < a.priority)) ∧
    (∀ (rands : ℕ → SpawnRand) (fuel : ℕ) (bonusState : BonusManagerState)
      (snake : List Position) (food : Position) (cfgs : List BonusConfig)
      (result : List ActiveBonus) (i : ℕ) (config : BonusConfig),
      trySpawnBonuses rands fuel cfgs bonusState snake food = Option.some result →
      cfgs.get? i = Option.some config →
      (cfgs.map (fun c => c.type)).Nodup →
      config.spawnChance = 1 →
      ValidRoll (rands i).roll →
      lookupD bonusState.eggsEatenSince config.type ≥
        lookupD bonusState.nextSpawnAt config.type →
      (bonusState.activeBonuses.filter
        (fun b => b.configType = config.type)).length = 0 →
      0 < config.maxInstances →
      (result.filter (fun b => b.configType = config.type)).length = 1) := by
  have hmain : ∀ (rands : ℕ → SpawnRand) (fuel : ℕ) (bonusState : BonusManagerState)
      (snake : List Position) (food : Position) (cfgs : List BonusConfig)
      (result : List ActiveBonus) (i : ℕ) (config : BonusConfig),
      trySpawnBonuses rands fuel cfgs bonusState snake food = Option.some result →
      cfgs.get? i = Option.some config →
      (cfgs.map (fun c => c.type)).Nodup →
      ((∃ b ∈ result, b.configType = config.type) ↔
        spawnCond bonusState (rands i) config) := by
    intro rands fuel bonusState snake food cfgs result i config hrun hget hnodup
    have htypes := trySpawnGo_types rands fuel bonusState snake food cfgs 0 result hrun
    constructor
    · rintro ⟨b, hb, hbt⟩
      have hmem : config.type ∈ result.map (fun b => b.configType) :=
        List.mem_map.mpr ⟨b, hb, hbt⟩
      rw [htypes] at hmem
      obtain ⟨p, hpfil, hpt⟩ := List.mem_map.mp hmem
      have hpmem : p ∈ cfgs.enumFrom 0 := List.mem_of_mem_filter hpfil
      have hpcond : spawnCond bonusState (rands p.1) p.2 := by
        have := List.of_mem_filter hpfil
        simpa using this
      obtain ⟨-, hpget⟩ := (enumFrom_pair_iff cfgs 0 p.1 p.2).mp (by
        rcases p with ⟨j, c⟩
        exact hpmem)
      simp only [Nat.sub_zero] at hpget
      have hij : p.1 = i := by
        have h1 : (cfgs.map (fun c => c.type)).get? p.1 = Option.some config.type := by
          rw [List.get?_map, hpget]
          simp [hpt]
        have h2 : (cfgs.map (fun c => c.type)).get? i = Option.some config.type := by
          rw [List.get?_map, hget]
          simp
        have hplen : p.1 < (cfgs.map (fun c => c.type)).length :=
          (List.get?_eq_some.mp h1).choose
        exact List.get?_inj hplen hnodup (h1.trans h2.symm)
      have hpc : p.2 = config := by
        rw [hij] at hpget
        rw [hpget] at hget
        injection hget
      rw [hij, hpc] at hpcond
      exact hpcond
    · intro hcond
      have hpair : (i, config) ∈ cfgs.enumFrom 0 :=
        (enumFrom_pair_iff cfgs 0 i config).mpr ⟨Nat.zero_le _, by simpa using hget⟩
      have hfil : (i, config) ∈ (cfgs.enumFrom 0).filter
          (fun p => decide (spawnCond bonusState (rands p.1) p.2)) :=
        List.mem_filter.mpr ⟨hpair, by simpa using hcond⟩
      have : config.type ∈ result.map (fun b => b.configType) := by
        rw [htypes]
        exact List.mem_map.mpr ⟨(i, config), hfil, rfl⟩
      obtain ⟨b, hb, hbt⟩ := List.mem_map.mp this
      exact ⟨b, hb, hbt⟩
  refine ⟨hmain, ⟨by decide, by decide⟩, ?_⟩
  intro rands fuel bonusState snake food cfgs result i config hrun hget hnodup
    hchance hroll hthresh hzero hmax
  have hcond : spawnCond bonusState (rands i) config := by
    refine ⟨hthresh, ?_, ?_⟩
    · rw [hzero]
      exact_mod_cast hmax
    · rw [hchance]
      exact hroll.2.le
  have hone := (hmain rands fuel bonusState snake food cfgs result i config
    hrun hget hnodup).mpr hcond
  have htypes := trySpawnGo_types rands fuel bonusState snake food cfgs 0 result hrun
  have hsub : (result.map (fun b => b.configType)).Sublist
      (cfgs.map (fun c => c.type)) := by
    rw [htypes]
    have hs1 : ((cfgs.enumFrom 0).filter
        (fun p => decide (spawnCond bonusState (rands p.1) p.2))).Sublist
        (cfgs.enumFrom 0) := List.filter_sublist _
    have := hs1.map (fun p : ℕ × BonusConfig => p.2.type)
    rw [enumFrom_map_type] at this
    exact this
  have hnodup2 : (result.map (fun b => b.configType)).Nodup := hnodup.sublist hsub
  have hle := nodup_filter_eq_length_le_one
    (result.map (fun b => b.configType)) config.type hnodup2
  have heq : ((result.map (fun b => b.configType)).filter
      (fun x => x = config.type)).length =
      (result.filter (fun b => b.configType = config.type)).length := by
    rw [List.filter_map, List.length_map]
    rfl
  have hge : 1 ≤ (result.filter (fun b => b.configType = config.type)).length := by
    obtain ⟨b, hb, hbt⟩ := hone
    have : b ∈ result.filter (fun b => b.configType = config.type) :=
      List.mem_filter.mpr ⟨hb, by simpa using hbt⟩
    exact List.length_pos.mpr (List.ne_nil_of_mem this)
  omega

/-- C6 witness (Scenario D): the dragon egg (`spawnChance = 1`), with its
counter at 6 against a threshold of 5 and no active instance, spawns
exactly one instance in the concrete pass. -/
theorem trySpawn_gating_spec_witness :
    (([createActiveBonus DRAGON_EGG_CONFIG ⟨0, 0⟩ 0,
        createActiveBonus SHRINK_EGG_CONFIG ⟨0, 0⟩ 0] :
        List ActiveBonus).filter (fun b => b.configType = "dragon-egg")).length = 1 :=
  trySpawn_gating_spec.2.2 (fun _ => ⟨0, fun _ => ⟨0, 0⟩, 0⟩) 3
    ⟨[], [("dragon-egg", 6), ("shrink-egg", 11), ("golden-apple", 0),
        ("crystal-gem", 0)],
      [("dragon-egg", 5), ("shrink-egg", 10), ("golden-apple", 10),
        ("crystal-gem", 20)]⟩
    [⟨5, 5⟩] ⟨6, 6⟩ getSpawnableBonuses
    [createActiveBonus DRAGON_EGG_CONFIG ⟨0, 0⟩ 0,
      createActiveBonus SHRINK_EGG_CONFIG ⟨0, 0⟩ 0]
    0 DRAGON_EGG_CONFIG rfl (by decide) (by decide) (by decide)
    (by constructor <;> norm_num) (by decide) (by decide) (by decide)
/-! ### C1 — the session invariant -/

/-- The spawnable list, computed. -/
lemma getSpawnableBonuses_eq :
    getSpawnableBonuses =
      [DRAGON_EGG_CONFIG, SHRINK_EGG_CONFIG, GOLDEN_APPLE_CONFIG, CRYSTAL_GEM_CONFIG] := by
  decide

/-- The registry lookup for the shrink egg, computed. -/
lemma registryGet_shrink :
    registryGet "shrink-egg" = Option.some SHRINK_EGG_CONFIG := by
  decide

/-- The compound invariant maintained by every reachable session state:
the length floor; any active shrink egg forces length at least 13 (ten
forced egg pickups on top of the initial 3); at most one shrink egg is
active; the shrink counter under-approximates the growth the snake has
banked; the shrink threshold never drops below 10; and the food never
sits on an active bonus. -/
def Inv (s : GameState) : Prop :=
  3 ≤ s.snake.length ∧
  (∀ b ∈ s.bonusState.activeBonuses, b.configType = "shrink-egg" →
    13 ≤ s.snake.length) ∧
  (s.bonusState.activeBonuses.filter
    (fun b => b.configType = "shrink-egg")).length ≤ 1 ∧
  3 + lookupD s.bonusState.eggsEatenSince "shrink-egg" ≤ (s.snake.length : ℤ) ∧
  10 ≤ lookupD s.bonusState.nextSpawnAt "shrink-egg" ∧
  s.food ∉ getBonusPositions s.bonusState.activeBonuses

lemma advanceBonus_some_fields {b b' : ActiveBonus}
    (h : advanceBonus b = Option.some b') :
    b'.configType = b.configType ∧ b'.position = b.position := by
  unfold advanceBonus at h
  rcases hreg : registryGet b.configType with _ | config
  · rw [hreg] at h
    obtain rfl : b = b' := by simpa using h
    exact ⟨rfl, rfl⟩
  · simp only [hreg] at h
    by_cases hlife : config.lifetime = 0
    · rw [if_pos hlife] at h
      obtain rfl : b = b' := by simpa using h
      exact ⟨rfl, rfl⟩
    · rw [if_neg hlife] at h
      by_cases hexp : b.timeRemaining - 100 ≤ 0
      · rw [if_pos hexp] at h
        exact absurd h (by simp)
      · rw [if_neg hexp] at h
        obtain rfl : { b with timeRemaining := b.timeRemaining - 100 } = b' := by
          simpa using h
        exact ⟨rfl, rfl⟩

/-- The timer advance cannot increase the number of active shrink eggs. -/
lemma filterMap_advance_count (l : List ActiveBonus) :
    ((l.filterMap advanceBonus).filter
      (fun b => b.configType = "shrink-egg")).length ≤
    (l.filter (fun b => b.configType = "shrink-egg")).length := by
  induction l with
  | nil => simp
  | cons hd tl ih =>
    rw [List.filterMap_cons]
    rcases hadv : advanceBonus hd with _ | hd'
    · by_cases hs : hd.configType = "shrink-egg"
      · simp only [List.filter_cons, hs]
        simp only [decide_eq_true_eq, if_pos, List.length_cons]
        omega
      · simp only [List.filter_cons, hs]
        simpa using ih
    · have hf := (advanceBonus_some_fields hadv).1
      by_cases hs : hd.configType = "shrink-egg"
      · have hs' : hd'.configType = "shrink-egg" := hf.trans hs
        simp only [List.filter_cons, hs, hs']
        simp only [decide_eq_true_eq, if_pos, List.length_cons]
        omega
      · have hs' : ¬ hd'.configType = "shrink-egg" := fun hc => hs (hf ▸ hc)
        simp only [List.filter_cons, hs, hs']
        simpa [hs, hs'] using ih

/-- A position outside the original active set stays outside after the
timer advance. -/
lemma filterMap_advance_positions (l : List ActiveBonus) (p : Position)
    (h : p ∉ getBonusPositions l) :
    p ∉ getBonusPositions (l.filterMap advanceBonus) := by
  intro hmem
  obtain ⟨b', hb', hpos⟩ := List.mem_map.mp hmem
  obtain ⟨b, hb, hadv⟩ := List.mem_filterMap.mp hb'
  exact h (List.mem_map.mpr ⟨b, hb, by
    rw [← (advanceBonus_some_fields hadv).2]
    exact hpos⟩)

/-- The reset fold keeps the shrink counter dominated and the shrink
threshold at or above 10. -/
lemma resetFold_shrink_bounds (respawnRolls : ℕ → ℚ)
    (hv : ∀ i, ValidRoll (respawnRolls i)) (L : ℤ) (hL : 3 ≤ L) :
    ∀ (l : List (ℕ × ActiveBonus)) (acc : List (String × ℤ) × List (String × ℤ)),
      3 + lookupD acc.1 "shrink-egg" ≤ L → 10 ≤ lookupD acc.2 "shrink-egg" →
      3 + lookupD (l.foldl (resetStep respawnRolls) acc).1 "shrink-egg" ≤ L ∧
        10 ≤ lookupD (l.foldl (resetStep respawnRolls) acc).2 "shrink-egg" := by
  intro l
  induction l with
  | nil => intro acc h1 h2; exact ⟨h1, h2⟩
  | cons p rest ih =>
    intro acc h1 h2
    have hstep : 3 + lookupD (resetStep respawnRolls acc p).1 "shrink-egg" ≤ L ∧
        10 ≤ lookupD (resetStep respawnRolls acc p).2 "shrink-egg" := by
      unfold resetStep
      rcases hreg : registryGet p.2.configType with _ | config
      · exact ⟨h1, h2⟩
      · by_cases ht : p.2.configType = "shrink-egg"
        · rw [ht] at hreg
          rw [registryGet_shrink] at hreg
          injection hreg with hceq
          subst hceq
          have hmem := getRandomRespawnThreshold_mem (respawnRolls p.1)
            SHRINK_EGG_CONFIG (hv p.1) (by decide)
          rw [ht]
          constructor
          · rw [lookupD_setKey_self]
            omega
          · rw [lookupD_setKey_self]
            have h10 : SHRINK_EGG_CONFIG.minRespawnAfterEggs = 10 := by decide
            omega
        · exact ⟨by rw [lookupD_setKey_other _ _ _ _ (fun hh => ht hh.symm)]; exact h1,
            by rw [lookupD_setKey_other _ _ _ _ (fun hh => ht hh.symm)]; exact h2⟩
    exact ih _ hstep.1 hstep.2

/-- The bonus-timer advance preserves the session invariant. -/
lemma inv_timerStep (rolls : ℕ → ℚ) (s : GameState)
    (hv : ∀ i, ValidRoll (rolls i)) (hInv : Inv s) :
    Inv (bonusTimerStep rolls s) := by
  obtain ⟨ha, hb, hc, hd, he, hf⟩ := hInv
  have hact : (bonusTimerStep rolls s).bonusState.activeBonuses =
      s.bonusState.activeBonuses.filterMap advanceBonus := by
    show (processExpiredBonuses s.bonusState.activeBonuses).1 = _
    rw [processExpired_fst]
  have hsnake : (bonusTimerStep rolls s).snake = s.snake := rfl
  have hfood : (bonusTimerStep rolls s).food = s.food := rfl
  have hcounters : (bonusTimerStep rolls s).bonusState.eggsEatenSince =
      (((processExpiredBonuses s.bonusState.activeBonuses).2.enum).foldl
        (resetStep rolls) (s.bonusState.eggsEatenSince, s.bonusState.nextSpawnAt)).1 := by
    show (resetExpiredBonusCounters rolls _ _ _).1 = _
    rw [resetExpired_eq_foldl]
  have hnext : (bonusTimerStep rolls s).bonusState.nextSpawnAt =
      (((processExpiredBonuses s.bonusState.activeBonuses).2.enum).foldl
        (resetStep rolls) (s.bonusState.eggsEatenSince, s.bonusState.nextSpawnAt)).2 := by
    show (resetExpiredBonusCounters rolls _ _ _).2 = _
    rw [resetExpired_eq_foldl]
  have hfold := resetFold_shrink_bounds rolls hv (s.snake.length : ℤ)
    (by exact_mod_cast ha)
    ((processExpiredBonuses s.bonusState.activeBonuses).2.enum)
    (s.bonusState.eggsEatenSince, s.bonusState.nextSpawnAt) hd he
  refine ⟨by rw [hsnake]; exact ha, ?_, ?_, ?_, ?_, ?_⟩
  · intro b' hb' hbt
    rw [hact] at hb'
    obtain ⟨b, hbmem, hadv⟩ := List.mem_filterMap.mp hb'
    rw [hsnake]
    exact hb b hbmem ((advanceBonus_some_fields hadv).1 ▸ hbt)
  · rw [hact]
    exact le_trans (filterMap_advance_count s.bonusState.activeBonuses) hc
  · rw [hsnake, hcounters]
    exact hfold.1
  · rw [hnext]
    exact hfold.2
  · rw [hfood, hact]
    exact filterMap_advance_positions s.bonusState.activeBonuses s.food hf

/-- If nothing matches, the collided-bonus scan returns `none`. -/
lemma findCollidedBonusGo_none (pos : Position) :
    ∀ (l : List ActiveBonus) (k : ℕ),
      (∀ bb ∈ l, ¬ (bb.position.x = pos.x ∧ bb.position.y = pos.y)) →
      findCollidedBonusGo pos k l = Option.none := by
  intro l
  induction l with
  | nil => intro k _; rfl
  | cons b rest ih =>
    intro k hno
    unfold findCollidedBonusGo
    rw [if_neg (hno b (List.mem_cons_self _ _))]
    exact ih (k + 1) (fun bb hbb => hno bb (List.mem_cons_of_mem _ hbb))

/-- Reduction of a tick with no collision at all: the snake just moves. -/
lemma tick_noBonus_eq
    (W H : ℤ) (env : TickRand) (d : Direction) (s : GameState)
    (h : Position) (rest : List Position)
    (hrun : s.isRunning = true) (hover : s.isGameOver = false)
    (hsnake : s.snake = h :: rest)
    (hcol : checkCollision W H
      ⟨h.x + (DIRECTIONS d).x, h.y + (DIRECTIONS d).y⟩ s.snake = false)
    (hnofood : ¬ (h.x + (DIRECTIONS d).x = s.food.x ∧ h.y + (DIRECTIONS d).y = s.food.y))
    (hfind : findCollidedBonus s.bonusState.activeBonuses
      ⟨h.x + (DIRECTIONS d).x, h.y + (DIRECTIONS d).y⟩ = Option.none) :
    tick W H env d s =
      Option.some { s with
        snake := ((⟨h.x + (DIRECTIONS d).x, h.y + (DIRECTIONS d).y⟩ : Position)
          :: s.snake).dropLast
        direction := d } := by
  rw [hsnake] at hcol
  unfold tick
  rw [hsnake]
  simp only [hrun, hover]
  rw [if_neg (by simp)]
  rw [if_neg (by simp [hcol])]
  rw [← hsnake]
  rw [if_neg hnofood]
  simp only [Option.map_some', hfind]
  simp

/-- Reduction of a tick colliding with a bonus whose type is unknown to
the registry: the collision is skipped and the snake just moves. -/
lemma tick_unknownBonus_eq
    (W H : ℤ) (env : TickRand) (d : Direction) (s : GameState)
    (h : Position) (rest : List Position) (i : ℕ) (b : ActiveBonus)
    (hrun : s.isRunning = true) (hover : s.isGameOver = false)
    (hsnake : s.snake = h :: rest)
    (hcol : checkCollision W H
      ⟨h.x + (DIRECTIONS d).x, h.y + (DIRECTIONS d).y⟩ s.snake = false)
    (hnofood : ¬ (h.x + (DIRECTIONS d).x = s.food.x ∧ h.y + (DIRECTIONS d).y = s.food.y))
    (hfind : findCollidedBonus s.bonusState.activeBonuses
      ⟨h.x + (DIRECTIONS d).x, h.y + (DIRECTIONS d).y⟩ = Option.some i)
    (hget : s.bonusState.activeBonuses.get? i = Option.some b)
    (hmissing : registryGet b.configType = Option.none) :
    tick W H env d s =
      Option.some { s with
        snake := ((⟨h.x + (DIRECTIONS d).x, h.y + (DIRECTIONS d).y⟩ : Position)
          :: s.snake).dropLast
        direction := d } := by
  rw [hsnake] at hcol
  unfold tick
  rw [hsnake]
  simp only [hrun, hover]
  rw [if_neg (by simp)]
  rw [if_neg (by simp [hcol])]
  rw [← hsnake]
  rw [if_neg hnofood]
  simp only [Option.map_some', hfind, handleBonusCollision, hget, hmissing]
  simp

/-- Types the increment fold never sees keep their counter. -/
lemma incrementEggsEaten_lookup_notmem (t : String) :
    ∀ (cfgs : List BonusConfig) (m : List (String × ℤ)),
      t ∉ cfgs.map (fun c => c.type) →
      lookupD (incrementEggsEaten cfgs m) t = lookupD m t := by
  intro cfgs
  induction cfgs with
  | nil => intro m _; rfl
  | cons c rest ih =>
    intro m hnm
    have hct : c.type ≠ t := by
      intro hh
      exact hnm (List.mem_map.mpr ⟨c, List.mem_cons_self _ _, hh⟩)
    unfold incrementEggsEaten
    show lookupD ((rest).foldl _ (setKey m c.type (lookupD m c.type + 1))) t = _
    have := ih (setKey m c.type (lookupD m c.type + 1))
      (fun hh => hnm (List.mem_cons_of_mem _ hh))
    unfold incrementEggsEaten at this
    rw [this]
    exact lookupD_setKey_other _ _ _ _ (Ne.symm hct)

/-- Each spawnable type's counter goes up by exactly one on a regular
pickup. -/
lemma incrementEggsEaten_lookup (t : String) :
    ∀ (cfgs : List BonusConfig) (m : List (String × ℤ)),
      t ∈ cfgs.map (fun c => c.type) →
      (cfgs.map (fun c => c.type)).Nodup →
      lookupD (incrementEggsEaten cfgs m) t = lookupD m t + 1 := by
  intro cfgs
  induction cfgs with
  | nil => intro m hmem _; exact absurd hmem (by simp)
  | cons c rest ih =>
    intro m hmem hnodup
    unfold incrementEggsEaten
    show lookupD ((rest).foldl _ (setKey m c.type (lookupD m c.type + 1))) t = _
    by_cases hct : c.type = t
    · have hnotin : t ∉ rest.map (fun c => c.type) := by
        rw [← hct]
        exact (List.nodup_cons.mp (by simpa using hnodup)).1
      have := incrementEggsEaten_lookup_notmem t rest
        (setKey m c.type (lookupD m c.type + 1)) hnotin
      unfold incrementEggsEaten at this
      rw [this, hct, lookupD_setKey_self]
    · have hmem2 : t ∈ rest.map (fun c => c.type) := by
        rcases List.mem_map.mp hmem with ⟨c2, hc2, hc2t⟩
        rcases List.mem_cons.mp hc2 with rfl | hc2r
        · exact absurd hc2t hct
        · exact List.mem_map.mpr ⟨c2, hc2r, hc2t⟩
      have := ih (setKey m c.type (lookupD m c.type + 1)) hmem2
        (List.nodup_cons.mp (by simpa using hnodup)).2
      unfold incrementEggsEaten at this
      rw [this]
      rw [lookupD_setKey_other _ _ _ _ (Ne.symm hct)]

/-- What a registry hit tells us about the config. -/
lemma registryGet_mem {t : String} {c : BonusConfig}
    (h : registryGet t = Option.some c) :
    c ∈ registryConfigs ∧ c.type = t := by
  unfold registryGet at h
  exact ⟨List.mem_of_find?_eq_some h, by simpa using List.find?_some h⟩

/-- Characterization of a successful regular-collectible resolution. -/
lemma handleFoodCollision_spec {env : TickRand} {newSnake : List Position}
    {score : ℤ} {bs : BonusManagerState} {res : FoodCollisionResult}
    (h : handleFoodCollision env newSnake score bs = Option.some res) :
    res.newScore = score + 1 ∧
    res.snakeGrew = true ∧
    res.newFood ∉ newSnake ∧
    res.newFood ∉ getBonusPositions bs.activeBonuses ∧
    res.newBonusState.eggsEatenSince =
      incrementEggsEaten getSpawnableBonuses bs.eggsEatenSince ∧
    res.newBonusState.nextSpawnAt = bs.nextSpawnAt ∧
    ∃ sp, trySpawnBonuses env.spawnRands env.fuel getSpawnableBonuses
        { bs with eggsEatenSince :=
            incrementEggsEaten getSpawnableBonuses bs.eggsEatenSince }
        newSnake res.newFood = Option.some sp ∧
      res.newBonusState.activeBonuses = bs.activeBonuses ++ sp := by
  unfold handleFoodCollision at h
  rcases hpos : getRandomPosition env.fuel env.foodDraws
      (newSnake ++ getBonusPositions bs.activeBonuses) with _ | newFood
  · rw [hpos] at h
    exact absurd h (by simp)
  · simp only [hpos] at h
    rcases hsp : trySpawnBonuses env.spawnRands env.fuel getSpawnableBonuses
        { bs with eggsEatenSince :=
            incrementEggsEaten getSpawnableBonuses bs.eggsEatenSince }
        newSnake newFood with _ | sp
    · simp only [hsp] at h
      exact absurd h (by simp)
    · simp only [hsp] at h
      obtain rfl :
          ({ newFood := newFood,
             newScore := score + REGULAR_EGG_CONFIG.minPoints,
             snakeGrew := REGULAR_EGG_CONFIG.growsSnake,
             newBonusState :=
               { activeBonuses := bs.activeBonuses ++ sp,
                 eggsEatenSince :=
                   incrementEggsEaten getSpawnableBonuses bs.eggsEatenSince,
                 nextSpawnAt := bs.nextSpawnAt } } : FoodCollisionResult) = res := by
        simpa using h
      have hnm := getRandomPosition_not_mem hpos
      refine ⟨rfl, rfl, ?_, ?_, rfl, rfl, sp, hsp, rfl⟩
      · intro hc
        exact hnm (List.mem_append_left _ hc)
      · intro hc
        exact hnm (List.mem_append_right _ hc)

/-- Reduction of a tick that eats the regular collectible with no bonus
at the candidate head. -/
lemma tick_food_eq
    (W H : ℤ) (env : TickRand) (d : Direction) (s : GameState)
    (h : Position) (rest : List Position) (res : FoodCollisionResult)
    (hrun : s.isRunning = true) (hover : s.isGameOver = false)
    (hsnake : s.snake = h :: rest)
    (hcol : checkCollision W H
      ⟨h.x + (DIRECTIONS d).x, h.y + (DIRECTIONS d).y⟩ s.snake = false)
    (hfood : h.x + (DIRECTIONS d).x = s.food.x ∧ h.y + (DIRECTIONS d).y = s.food.y)
    (hh : handleFoodCollision env
      ((⟨h.x + (DIRECTIONS d).x, h.y + (DIRECTIONS d).y⟩ : Position) :: s.snake)
      s.score s.bonusState = Option.some res)
    (hnb : findCollidedBonus res.newBonusState.activeBonuses
      ⟨h.x + (DIRECTIONS d).x, h.y + (DIRECTIONS d).y⟩ = Option.none)
    (hgrewT : res.snakeGrew = true) :
    tick W H env d s =
      Option.some { s with
        snake := (⟨h.x + (DIRECTIONS d).x, h.y + (DIRECTIONS d).y⟩ : Position) :: s.snake
        food := res.newFood
        bonusState := res.newBonusState
        score := res.newScore
        direction := d } := by
  rw [hsnake] at hcol
  unfold tick
  rw [hsnake]
  simp only [hrun, hover]
  rw [if_neg (by simp)]
  rw [if_neg (by simp [hcol])]
  rw [← hsnake]
  rw [if_pos hfood]
  simp only [hh, Option.map_some', hnb, hgrewT]
  simp

/-- Dropping a satisfying element at index `i` lowers the filter count by
exactly one. -/
lemma filter_length_eraseIdx_of_pos (l : List ActiveBonus) (i : ℕ) (x : ActiveBonus)
    (p : ActiveBonus → Bool)
    (hget : l.get? i = Option.some x) (hpx : p x = true) :
    (l.filter p).length = ((l.eraseIdx i).filter p).length + 1 := by
  have hlen : i < l.length := (List.get?_eq_some.mp hget).choose
  have hx : l[i] = x := by
    have h1 : l[i]? = Option.some x := by
      rw [← List.get?_eq_getElem?]
      exact hget
    have h2 : l[i]? = Option.some (l[i]) := List.getElem?_eq_getElem hlen
    exact Option.some.inj (h2.symm.trans h1)
  have hdecomp : l = l.take i ++ x :: l.drop (i + 1) := by
    conv_lhs => rw [← List.take_append_drop i l]
    congr 1
    rw [List.drop_eq_getElem_cons hlen, hx]
  rw [List.eraseIdx_eq_take_drop_succ]
  conv_lhs => rw [hdecomp]
  rw [List.filter_append, List.filter_append, List.filter_cons, hpx]
  simp [List.length_append]
  omega

/-- Dropping a non-satisfying element keeps the filter count. -/
lemma filter_length_eraseIdx_of_neg (l : List ActiveBonus) (i : ℕ) (x : ActiveBonus)
    (p : ActiveBonus → Bool)
    (hget : l.get? i = Option.some x) (hpx : p x = false) :
    ((l.eraseIdx i).filter p).length = (l.filter p).length := by
  have hlen : i < l.length := (List.get?_eq_some.mp hget).choose
  have hx : l[i] = x := by
    have h1 : l[i]? = Option.some x := by
      rw [← List.get?_eq_getElem?]
      exact hget
    have h2 : l[i]? = Option.some (l[i]) := List.getElem?_eq_getElem hlen
    exact Option.some.inj (h2.symm.trans h1)
  have hdecomp : l = l.take i ++ x :: l.drop (i + 1) := by
    conv_lhs => rw [← List.take_append_drop i l]
    congr 1
    rw [List.drop_eq_getElem_cons hlen, hx]
  rw [List.eraseIdx_eq_take_drop_succ]
  conv_rhs => rw [hdecomp]
  rw [List.filter_append, List.filter_append, List.filter_cons, hpx]
  simp [List.length_append]

/-- Reduction of a tick that eats the food but diverges in rejection
sampling. -/
lemma tick_food_none
    (W H : ℤ) (env : TickRand) (d : Direction) (s : GameState)
    (h : Position) (rest : List Position)
    (hrun : s.isRunning = true) (hover : s.isGameOver = false)
    (hsnake : s.snake = h :: rest)
    (hcol : checkCollision W H
      ⟨h.x + (DIRECTIONS d).x, h.y + (DIRECTIONS d).y⟩ s.snake = false)
    (hfood : h.x + (DIRECTIONS d).x = s.food.x ∧ h.y + (DIRECTIONS d).y = s.food.y)
    (hh : handleFoodCollision env
      ((⟨h.x + (DIRECTIONS d).x, h.y + (DIRECTIONS d).y⟩ : Position) :: s.snake)
      s.score s.bonusState = Option.none) :
    tick W H env d s = Option.none := by
  rw [hsnake] at hcol
  unfold tick
  rw [hsnake]
  simp only [hrun, hover]
  rw [if_neg (by simp)]
  rw [if_neg (by simp [hcol])]
  rw [← hsnake]
  rw [if_pos hfood]
  simp only [hh, Option.map_none']

/-- Filtering on the type of the instances commutes with mapping to
types. -/
lemma filter_configType_length_eq (l : List ActiveBonus) (t : String) :
    ((l.map (fun b => b.configType)).filter (fun x => x = t)).length =
      (l.filter (fun b => b.configType = t)).length := by
  rw [List.filter_map, List.length_map]
  rfl

/-- One pass never spawns two instances of the same type when the pass
list has duplicate-free types. -/
lemma trySpawn_count_le_one (rands : ℕ → SpawnRand) (fuel : ℕ)
    (bonusState : BonusManagerState) (snake : List Position) (food : Position)
    (cfgs : List BonusConfig) (sp : List ActiveBonus) (t : String)
    (hrun : trySpawnBonuses rands fuel cfgs bonusState snake food = Option.some sp)
    (hnodup : (cfgs.map (fun c => c.type)).Nodup) :
    (sp.filter (fun b => b.configType = t)).length ≤ 1 := by
  have htypes := trySpawnGo_types rands fuel bonusState snake food cfgs 0 sp hrun
  have hsub : (sp.map (fun b => b.configType)).Sublist
      (cfgs.map (fun c => c.type)) := by
    rw [htypes]
    have hs1 : ((cfgs.enumFrom 0).filter
        (fun p => decide (spawnCond bonusState (rands p.1) p.2))).Sublist
        (cfgs.enumFrom 0) := List.filter_sublist _
    have := hs1.map (fun p : ℕ × BonusConfig => p.2.type)
    rw [enumFrom_map_type] at this
    exact this
  have hnodup2 : (sp.map (fun b => b.configType)).Nodup := hnodup.sublist hsub
  have := nodup_filter_eq_length_le_one (sp.map (fun b => b.configType)) t hnodup2
  rw [filter_configType_length_eq] at this
  exact this

/-- Invariant preservation for collecting a registered growing bonus with
no shrink effect (the regular-egg, dragon-egg, golden-apple and
crystal-gem shapes). -/
lemma inv_knownBonus_grow (s : GameState) (nh : Position) (d : Direction)
    (i : ℕ) (b : ActiveBonus) (config : BonusConfig) (thr : ℤ)
    (hgrow : config.growsSnake = true)
    (hnoshrink : ¬ (config.effect.type = BonusEffectType.shrink ∧
      config.effect.value.getD 0 ≠ 0))
    (hbtype : b.configType ≠ "shrink-egg")
    (ha : 3 ≤ s.snake.length)
    (hb : ∀ bb ∈ s.bonusState.activeBonuses, bb.configType = "shrink-egg" →
      13 ≤ s.snake.length)
    (hc : (s.bonusState.activeBonuses.filter
      (fun bb => bb.configType = "shrink-egg")).length ≤ 1)
    (hcnt : 3 + lookupD s.bonusState.eggsEatenSince "shrink-egg" ≤
      (s.snake.length : ℤ))
    (hthr : 10 ≤ lookupD s.bonusState.nextSpawnAt "shrink-egg")
    (hfd : s.food ∉ getBonusPositions s.bonusState.activeBonuses) :
    Inv { s with
      snake :=
        if (false || config.growsSnake) = true then
          (if config.effect.type = BonusEffectType.shrink ∧
              config.effect.value.getD 0 ≠ 0
            then applyShrinkEffect (nh :: s.snake) (config.effect.value.getD 0)
            else nh :: s.snake)
        else
          (if config.effect.type = BonusEffectType.shrink ∧
              config.effect.value.getD 0 ≠ 0
            then applyShrinkEffect (nh :: s.snake) (config.effect.value.getD 0)
            else nh :: s.snake).dropLast
      bonusState :=
        { activeBonuses := removeBonusAtIndex s.bonusState.activeBonuses i
          eggsEatenSince := setKey s.bonusState.eggsEatenSince b.configType 0
          nextSpawnAt := setKey s.bonusState.nextSpawnAt b.configType thr }
      score := s.score + b.points
      direction := d } := by
  have hsn : (if (false || config.growsSnake) = true then
      (if config.effect.type = BonusEffectType.shrink ∧
          config.effect.value.getD 0 ≠ 0
        then applyShrinkEffect (nh :: s.snake) (config.effect.value.getD 0)
        else nh :: s.snake)
    else
      (if config.effect.type = BonusEffectType.shrink ∧
          config.effect.value.getD 0 ≠ 0
        then applyShrinkEffect (nh :: s.snake) (config.effect.value.getD 0)
        else nh :: s.snake).dropLast) = nh :: s.snake := by
    rw [if_pos (by rw [hgrow]; rfl), if_neg hnoshrink]
  have hesub : (removeBonusAtIndex s.bonusState.activeBonuses i).Sublist
      s.bonusState.activeBonuses := by
    rw [removeBonusAtIndex_eq_eraseIdx]
    exact List.eraseIdx_sublist _ _
  unfold Inv
  dsimp only
  rw [hsn]
  refine ⟨?_, ?_, ?_, ?_, ?_, ?_⟩
  · simp only [List.length_cons]
    omega
  · intro bb hbb hbt
    simp only [List.length_cons]
    have := hb bb (hesub.subset hbb) hbt
    omega
  · exact le_trans ((hesub.filter _).length_le) hc
  · rw [lookupD_setKey_other _ _ _ _ (fun hh => hbtype hh.symm)]
    simp only [List.length_cons]
    push_cast
    omega
  · rw [lookupD_setKey_other _ _ _ _ (fun hh => hbtype hh.symm)]
    exact hthr
  · intro hmem
    obtain ⟨bb, hbb, hbpos⟩ := List.mem_map.mp hmem
    exact hfd (List.mem_map.mpr ⟨bb, hesub.subset hbb, hbpos⟩)

/-- Invariant preservation for collecting the shrink egg. -/
lemma inv_knownBonus_shrink (s : GameState) (nh : Position) (d : Direction)
    (i : ℕ) (b : ActiveBonus) (thr : ℤ)
    (hbtype : b.configType = "shrink-egg")
    (hget : s.bonusState.activeBonuses.get? i = Option.some b)
    (hthr10 : 10 ≤ thr)
    (ha : 3 ≤ s.snake.length)
    (hb13 : 13 ≤ s.snake.length)
    (hc : (s.bonusState.activeBonuses.filter
      (fun bb => bb.configType = "shrink-egg")).length ≤ 1)
    (hfd : s.food ∉ getBonusPositions s.bonusState.activeBonuses) :
    Inv { s with
      snake :=
        if (false || SHRINK_EGG_CONFIG.growsSnake) = true then
          (if SHRINK_EGG_CONFIG.effect.type = BonusEffectType.shrink ∧
              SHRINK_EGG_CONFIG.effect.value.getD 0 ≠ 0
            then applyShrinkEffect (nh :: s.snake)
              (SHRINK_EGG_CONFIG.effect.value.getD 0)
            else nh :: s.snake)
        else
          (if SHRINK_EGG_CONFIG.effect.type = BonusEffectType.shrink ∧
              SHRINK_EGG_CONFIG.effect.value.getD 0 ≠ 0
            then applyShrinkEffect (nh :: s.snake)
              (SHRINK_EGG_CONFIG.effect.value.getD 0)
            else nh :: s.snake).dropLast
      bonusState :=
        { activeBonuses := removeBonusAtIndex s.bonusState.activeBonuses i
          eggsEatenSince := setKey s.bonusState.eggsEatenSince b.configType 0
          nextSpawnAt := setKey s.bonusState.nextSpawnAt b.configType thr }
      score := s.score + b.points
      direction := d } := by
  have hsn : (if (false || SHRINK_EGG_CONFIG.growsSnake) = true then
      (if SHRINK_EGG_CONFIG.effect.type = BonusEffectType.shrink ∧
          SHRINK_EGG_CONFIG.effect.value.getD 0 ≠ 0
        then applyShrinkEffect (nh :: s.snake)
          (SHRINK_EGG_CONFIG.effect.value.getD 0)
        else nh :: s.snake)
    else
      (if SHRINK_EGG_CONFIG.effect.type = BonusEffectType.shrink ∧
          SHRINK_EGG_CONFIG.effect.value.getD 0 ≠ 0
        then applyShrinkEffect (nh :: s.snake)
          (SHRINK_EGG_CONFIG.effect.value.getD 0)
        else nh :: s.snake).dropLast) =
      (applyShrinkEffect (nh :: s.snake) 5).dropLast := by
    rw [if_neg (by decide), if_pos (by constructor <;> decide)]
    rfl
  have hlenS := applyShrinkEffect_length (nh :: s.snake) 5 (by norm_num)
  rw [if_pos (by simp only [List.length_cons]; push_cast; omega)] at hlenS
  simp only [List.length_cons] at hlenS
  have hdropS := List.length_dropLast (applyShrinkEffect (nh :: s.snake) 5)
  have hcount : ((removeBonusAtIndex s.bonusState.activeBonuses i).filter
      (fun bb => bb.configType = "shrink-egg")).length = 0 := by
    rw [removeBonusAtIndex_eq_eraseIdx]
    have := filter_length_eraseIdx_of_pos s.bonusState.activeBonuses i b
      (fun bb => bb.configType = "shrink-egg") hget (by simpa using hbtype)
    omega
  have hnone : ∀ bb ∈ removeBonusAtIndex s.bonusState.activeBonuses i,
      ¬ bb.configType = "shrink-egg" := by
    intro bb hbb hbt
    have : bb ∈ (removeBonusAtIndex s.bonusState.activeBonuses i).filter
        (fun bb => bb.configType = "shrink-egg") :=
      List.mem_filter.mpr ⟨hbb, by simpa using hbt⟩
    rw [List.length_eq_zero] at hcount
    rw [hcount] at this
    exact absurd this (List.not_mem_nil bb)
  have hesub : (removeBonusAtIndex s.bonusState.activeBonuses i).Sublist
      s.bonusState.activeBonuses := by
    rw [removeBonusAtIndex_eq_eraseIdx]
    exact List.eraseIdx_sublist _ _
  unfold Inv
  dsimp only
  rw [hsn]
  refine ⟨?_, ?_, ?_, ?_, ?_, ?_⟩
  · omega
  · intro bb hbb hbt
    exact absurd hbt (hnone bb hbb)
  · omega
  · rw [hbtype, lookupD_setKey_self]
    push_cast
    omega
  · rw [hbtype, lookupD_setKey_self]
    exact hthr10
  · intro hmem
    obtain ⟨bb, hbb, hbpos⟩ := List.mem_map.mp hmem
    exact hfd (List.mem_map.mpr ⟨bb, hesub.subset hbb, hbpos⟩)

/-- A tick preserves the session invariant. -/
lemma inv_tickStep (W H : ℤ) (env : TickRand) (d : Direction) (s s' : GameState)
    (hv : ValidTick env) (hInv : Inv s)
    (htick : tick W H env d s = Option.some s') : Inv s' := by
  obtain ⟨ha, hb, hc, hcnt, hthr, hfd⟩ := hInv
  rcases hrun : s.isRunning with _ | _
  · have : s = s' := by
      unfold tick at htick
      rw [hrun] at htick
      simpa using htick
    exact this ▸ ⟨ha, hb, hc, hcnt, hthr, hfd⟩
  · rcases hover : s.isGameOver with _ | _
    swap
    · have : s = s' := by
        unfold tick at htick
        rw [hover] at htick
        simp only [Bool.not_true, or_true, if_pos] at htick
        · simpa using htick
      exact this ▸ ⟨ha, hb, hc, hcnt, hthr, hfd⟩
    · rcases hsnake : s.snake with _ | ⟨h0, rest⟩
      · exfalso
        unfold tick at htick
        rw [hsnake] at htick
        simp [hrun, hover] at htick
      · rcases hcolb : checkCollision W H
            ⟨h0.x + (DIRECTIONS d).x, h0.y + (DIRECTIONS d).y⟩ s.snake with _ | _
        swap
        · -- fatal: only the flags change
          have hred : tick W H env d s =
              Option.some { s with isGameOver := true, isRunning := false } := by
            rw [hsnake] at hcolb
            unfold tick
            rw [hsnake]
            simp [hrun, hover, hcolb]
          rw [htick] at hred
          obtain rfl : s' = { s with isGameOver := true, isRunning := false } := by
            simpa using hred
          exact ⟨ha, hb, hc, hcnt, hthr, hfd⟩
        · by_cases hfood : (h0.x + (DIRECTIONS d).x = s.food.x ∧
              h0.y + (DIRECTIONS d).y = s.food.y)
          · -- the regular collectible is eaten
            rcases hh : handleFoodCollision env
                ((⟨h0.x + (DIRECTIONS d).x, h0.y + (DIRECTIONS d).y⟩ : Position)
                  :: s.snake) s.score s.bonusState with _ | res
            · exfalso
              have := tick_food_none W H env d s h0 rest hrun hover hsnake hcolb hfood hh
              rw [htick] at this
              exact absurd this (by simp)
            · obtain ⟨hsc, hgrew, hnf1, hnf2, hegg, hnxt, sp, hsp, hact⟩ :=
                handleFoodCollision_spec hh
              have hfoodeq :
                  (⟨h0.x + (DIRECTIONS d).x, h0.y + (DIRECTIONS d).y⟩ : Position) =
                    s.food := by
                have hself : s.food = ⟨s.food.x, s.food.y⟩ := rfl
                rw [hself]
                simp only [Position.mk.injEq]
                exact ⟨hfood.1, hfood.2⟩
              have hnbonus : findCollidedBonus res.newBonusState.activeBonuses
                  ⟨h0.x + (DIRECTIONS d).x, h0.y + (DIRECTIONS d).y⟩ = Option.none := by
                apply findCollidedBonusGo_none
                intro bb hbb
                rw [hact] at hbb
                rcases List.mem_append.mp hbb with hborig | hbsp
                · intro hxy
                  have hbp : bb.position =
                      (⟨h0.x + (DIRECTIONS d).x, h0.y + (DIRECTIONS d).y⟩ : Position) := by
                    have hself : bb.position = ⟨bb.position.x, bb.position.y⟩ := rfl
                    rw [hself]
                    simp only [Position.mk.injEq]
                    exact ⟨hxy.1, hxy.2⟩
                  exact hfd (List.mem_map.mpr ⟨bb, hborig, by rw [hbp, hfoodeq]⟩)
                · obtain ⟨j, config, hj, hbt, hcond, hpos, htm⟩ :=
                    trySpawnGo_mem_spec env.spawnRands env.fuel _ _ _
                      getSpawnableBonuses 0 sp hsp bb hbsp
                  intro hxy
                  have hbp : bb.position =
                      (⟨h0.x + (DIRECTIONS d).x, h0.y + (DIRECTIONS d).y⟩ : Position) := by
                    have hself : bb.position = ⟨bb.position.x, bb.position.y⟩ := rfl
                    rw [hself]
                    simp only [Position.mk.injEq]
                    exact ⟨hxy.1, hxy.2⟩
                  exact hpos (List.mem_append_left _ (List.mem_append_left _
                    (by rw [hbp]; exact List.mem_cons_self _ _)))
              have hred := tick_food_eq W H env d s h0 rest res hrun hover hsnake
                hcolb hfood hh hnbonus hgrew
              rw [htick] at hred
              have hseq := Option.some.inj hred
              subst hseq
              have hlen1 : (((⟨h0.x + (DIRECTIONS d).x, h0.y + (DIRECTIONS d).y⟩ : Position)
                  :: s.snake).length) = s.snake.length + 1 := by simp
              have hshrinkmem : "shrink-egg" ∈ getSpawnableBonuses.map
                  (fun c => c.type) := by decide
              have hshrinknodup : (getSpawnableBonuses.map (fun c => c.type)).Nodup := by
                decide
              have heggS : lookupD res.newBonusState.eggsEatenSince "shrink-egg" =
                  lookupD s.bonusState.eggsEatenSince "shrink-egg" + 1 := by
                rw [hegg]
                exact incrementEggsEaten_lookup "shrink-egg" getSpawnableBonuses
                  s.bonusState.eggsEatenSince hshrinkmem hshrinknodup
              have hspshrink : ∀ bb ∈ sp, bb.configType = "shrink-egg" →
                  12 ≤ s.snake.length := by
                intro bb hbsp hbt
                obtain ⟨j, config, hj, hbt2, hcond, hpos, htm⟩ :=
                  trySpawnGo_mem_spec env.spawnRands env.fuel _ _ _
                    getSpawnableBonuses 0 sp hsp bb hbsp
                have hconfig : config = SHRINK_EGG_CONFIG := by
                  have hcmem := List.get?_mem hj
                  rw [getSpawnableBonuses_eq] at hcmem
                  simp only [List.mem_cons, List.not_mem_nil, or_false] at hcmem
                  have hct : config.type = "shrink-egg" := hbt2 ▸ hbt
                  rcases hcmem with rfl | rfl | rfl | rfl
                  · exact absurd hct (by decide)
                  · rfl
                  · exact absurd hct (by decide)
                  · exact absurd hct (by decide)
                obtain ⟨hge, -, -⟩ := hcond
                rw [hconfig] at hge
                have hct2 : SHRINK_EGG_CONFIG.type = "shrink-egg" := by decide
                rw [hct2] at hge
                have heggS2 : lookupD (incrementEggsEaten getSpawnableBonuses
                    s.bonusState.eggsEatenSince) "shrink-egg" =
                    lookupD s.bonusState.eggsEatenSince "shrink-egg" + 1 :=
                  incrementEggsEaten_lookup "shrink-egg" getSpawnableBonuses
                    s.bonusState.eggsEatenSince hshrinkmem hshrinknodup
                dsimp only at hge
                rw [heggS2] at hge
                omega
              unfold Inv
              dsimp only
              refine ⟨?_, ?_, ?_, ?_, ?_, ?_⟩
              · simp only [List.length_cons]
                omega
              · intro bb hbb hbt
                simp only [List.length_cons]
                rw [hact] at hbb
                rcases List.mem_append.mp hbb with hborig | hbsp
                · have := hb bb hborig hbt
                  omega
                · have := hspshrink bb hbsp hbt
                  omega
              · rw [hact, List.filter_append, List.length_append]
                rcases Nat.eq_zero_or_pos
                    ((sp.filter (fun b => b.configType = "shrink-egg")).length)
                    with hz | hpos2
                · omega
                · have hmemshr : ∃ bb ∈ sp, bb.configType = "shrink-egg" := by
                    rcases hfe : sp.filter (fun b => b.configType = "shrink-egg")
                        with _ | ⟨bb, rest2⟩
                    · rw [hfe] at hpos2
                      simp at hpos2
                    · have : bb ∈ sp.filter (fun b => b.configType = "shrink-egg") := by
                        rw [hfe]
                        exact List.mem_cons_self _ _
                      exact ⟨bb, List.mem_of_mem_filter this,
                        by simpa using List.of_mem_filter this⟩
                  obtain ⟨bb, hbsp, hbt⟩ := hmemshr
                  obtain ⟨j, config, hj, hbt2, hcond, hposx, htm⟩ :=
                    trySpawnGo_mem_spec env.spawnRands env.fuel _ _ _
                      getSpawnableBonuses 0 sp hsp bb hbsp
                  have hconfig : config = SHRINK_EGG_CONFIG := by
                    have hcmem := List.get?_mem hj
                    rw [getSpawnableBonuses_eq] at hcmem
                    simp only [List.mem_cons, List.not_mem_nil, or_false] at hcmem
                    have hct : config.type = "shrink-egg" := hbt2 ▸ hbt
                    rcases hcmem with rfl | rfl | rfl | rfl
                    · exact absurd hct (by decide)
                    · rfl
                    · exact absurd hct (by decide)
                    · exact absurd hct (by decide)
                  obtain ⟨-, hlt, -⟩ := hcond
                  rw [hconfig] at hlt
                  have hct2 : SHRINK_EGG_CONFIG.type = "shrink-egg" := by decide
                  have hmax : SHRINK_EGG_CONFIG.maxInstances = 1 := by decide
                  rw [hct2, hmax] at hlt
                  have horig0 : (s.bonusState.activeBonuses.filter
                      (fun b => b.configType = "shrink-egg")).length = 0 := by
                    dsimp only at hlt
                    omega
                  have hsple := trySpawn_count_le_one env.spawnRands env.fuel _ _ _
                    getSpawnableBonuses sp "shrink-egg" hsp hshrinknodup
                  omega
              · rw [heggS]
                simp only [List.length_cons]
                push_cast
                omega
              · rw [hnxt]
                exact hthr
              · rw [hact]
                intro hmem
                obtain ⟨bb, hbb, hbpos⟩ := List.mem_map.mp hmem
                rcases List.mem_append.mp hbb with hborig | hbsp
                · exact hnf2 (List.mem_map.mpr ⟨bb, hborig, hbpos⟩)
                · obtain ⟨j, config, hj, hbt2, hcond, hposx, htm⟩ :=
                    trySpawnGo_mem_spec env.spawnRands env.fuel _ _ _
                      getSpawnableBonuses 0 sp hsp bb hbsp
                  exact hposx (List.mem_append_left _ (List.mem_append_right _
                    (by rw [hbpos]; exact List.mem_cons_self _ _)))
          · -- no food this tick
            rcases hfind : findCollidedBonus s.bonusState.activeBonuses
                ⟨h0.x + (DIRECTIONS d).x, h0.y + (DIRECTIONS d).y⟩ with _ | i
            · have hred := tick_noBonus_eq W H env d s h0 rest hrun hover hsnake
                hcolb hfood hfind
              rw [htick] at hred
              have hseq := Option.some.inj hred
              subst hseq
              have hlen : (((⟨h0.x + (DIRECTIONS d).x, h0.y + (DIRECTIONS d).y⟩ :
                  Position) :: s.snake).dropLast).length = s.snake.length := by
                simp
              unfold Inv
              dsimp only
              exact ⟨by rw [hlen]; exact ha,
                fun bb hbb hbt => by rw [hlen]; exact hb bb hbb hbt,
                hc, by rw [hlen]; exact hcnt, hthr, hfd⟩
            · obtain ⟨-, ⟨b, hbget, hbxy⟩, -⟩ := findCollidedBonusGo_spec
                ⟨h0.x + (DIRECTIONS d).x, h0.y + (DIRECTIONS d).y⟩
                s.bonusState.activeBonuses 0 i hfind
              simp only [Nat.sub_zero] at hbget
              rcases hreg : registryGet b.configType with _ | config
              · have hred := tick_unknownBonus_eq W H env d s h0 rest i b hrun hover
                  hsnake hcolb hfood hfind hbget hreg
                rw [htick] at hred
                have hseq := Option.some.inj hred
                subst hseq
                have hlen : (((⟨h0.x + (DIRECTIONS d).x, h0.y + (DIRECTIONS d).y⟩ :
                    Position) :: s.snake).dropLast).length = s.snake.length := by
                  simp
                unfold Inv
                dsimp only
                exact ⟨by rw [hlen]; exact ha,
                  fun bb hbb hbt => by rw [hlen]; exact hb bb hbb hbt,
                  hc, by rw [hlen]; exact hcnt, hthr, hfd⟩
              · have hred := tick_knownBonus_eq W H env d s h0 rest i b config hrun
                  hover hsnake hcolb hfood hfind hbget hreg
                rw [htick] at hred
                obtain ⟨hcmem, hctype⟩ := registryGet_mem hreg
                have hbmem : b ∈ s.bonusState.activeBonuses := List.get?_mem hbget
                have hesub : (removeBonusAtIndex s.bonusState.activeBonuses i).Sublist
                    s.bonusState.activeBonuses := by
                  rw [removeBonusAtIndex_eq_eraseIdx]
                  exact List.eraseIdx_sublist _ _
                have hseq := Option.some.inj hred
                subst hseq
                have hvalid10 : 10 ≤ getRandomRespawnThreshold env.respawnRoll
                    SHRINK_EGG_CONFIG := by
                  have := getRandomRespawnThreshold_mem env.respawnRoll
                    SHRINK_EGG_CONFIG hv.2 (by decide)
                  have h10 : SHRINK_EGG_CONFIG.minRespawnAfterEggs = 10 := by decide
                  omega
                rw [show registryConfigs = [REGULAR_EGG_CONFIG, DRAGON_EGG_CONFIG,
                  SHRINK_EGG_CONFIG, GOLDEN_APPLE_CONFIG, CRYSTAL_GEM_CONFIG] from rfl]
                  at hcmem
                simp only [List.mem_cons, List.not_mem_nil, or_false] at hcmem
                rcases hcmem with rfl | rfl | rfl | rfl | rfl
                · exact inv_knownBonus_grow s _ d i b REGULAR_EGG_CONFIG _
                    (by decide) (by decide)
                    (by rw [← hctype]; decide) ha hb hc hcnt hthr hfd
                · exact inv_knownBonus_grow s _ d i b DRAGON_EGG_CONFIG _
                    (by decide) (by decide)
                    (by rw [← hctype]; decide) ha hb hc hcnt hthr hfd
                · have hbt : b.configType = "shrink-egg" := by rw [← hctype]; decide
                  exact inv_knownBonus_shrink s _ d i b _ hbt hbget hvalid10 ha
                    (hb b hbmem hbt) hc hfd
                · exact inv_knownBonus_grow s _ d i b GOLDEN_APPLE_CONFIG _
                    (by decide) (by decide)
                    (by rw [← hctype]; decide) ha hb hc hcnt hthr hfd
                · exact inv_knownBonus_grow s _ d i b CRYSTAL_GEM_CONFIG _
                    (by decide) (by decide)
                    (by rw [← hctype]; decide) ha hb hc hcnt hthr hfd

/-! ### Reachability: the invariant holds in every session state -/

/-- The initial per-type first-spawn thresholds, computed. -/
lemma initNextSpawn_eq (rolls : ℕ → ℚ) :
    (createInitialBonusState rolls).nextSpawnAt =
      [("dragon-egg", getRandomSpawnThreshold (rolls 0) DRAGON_EGG_CONFIG),
       ("shrink-egg", getRandomSpawnThreshold (rolls 1) SHRINK_EGG_CONFIG),
       ("golden-apple", getRandomSpawnThreshold (rolls 2) GOLDEN_APPLE_CONFIG),
       ("crystal-gem", getRandomSpawnThreshold (rolls 3) CRYSTAL_GEM_CONFIG)] := by
  unfold createInitialBonusState
  rw [getSpawnableBonuses_eq]
  rfl

/-- Looking up each spawnable type in the initial threshold table. -/
lemma initNextSpawn_lookup (rolls : ℕ → ℚ) :
    lookupD (createInitialBonusState rolls).nextSpawnAt "dragon-egg" =
        getRandomSpawnThreshold (rolls 0) DRAGON_EGG_CONFIG ∧
    lookupD (createInitialBonusState rolls).nextSpawnAt "shrink-egg" =
        getRandomSpawnThreshold (rolls 1) SHRINK_EGG_CONFIG ∧
    lookupD (createInitialBonusState rolls).nextSpawnAt "golden-apple" =
        getRandomSpawnThreshold (rolls 2) GOLDEN_APPLE_CONFIG ∧
    lookupD (createInitialBonusState rolls).nextSpawnAt "crystal-gem" =
        getRandomSpawnThreshold (rolls 3) CRYSTAL_GEM_CONFIG := by
  rw [initNextSpawn_eq]
  exact ⟨rfl, rfl, rfl, rfl⟩

/-- A spawn pass in which no config passes its gate spawns nothing. -/
lemma trySpawnGo_nil (rands : ℕ → SpawnRand) (fuel : ℕ)
    (bonusState : BonusManagerState) (snake : List Position) (food : Position) :
    ∀ (configs : List BonusConfig),
      (∀ c ∈ configs, ∀ j, ¬ spawnCond bonusState (rands j) c) →
      ∀ i, trySpawnGo rands fuel bonusState snake food i configs = Option.some [] := by
  intro configs
  induction configs with
  | nil => intro _ i; rfl
  | cons c rest ih =>
    intro h i
    unfold trySpawnGo
    rw [if_neg (h c (List.mem_cons_self _ _) i)]
    exact ih (fun c2 hc2 j => h c2 (List.mem_cons_of_mem _ hc2) j) (i + 1)

/-- Forward evaluation of `handleFoodCollision` from its two random
draws. -/
lemma handleFoodCollision_eq (env : TickRand) (newSnake : List Position)
    (score : ℤ) (bs : BonusManagerState) (newFood : Position) (sp : List ActiveBonus)
    (hpos : getRandomPosition env.fuel env.foodDraws
      (newSnake ++ getBonusPositions bs.activeBonuses) = Option.some newFood)
    (hsp : trySpawnBonuses env.spawnRands env.fuel getSpawnableBonuses
      { bs with eggsEatenSince :=
          incrementEggsEaten getSpawnableBonuses bs.eggsEatenSince }
      newSnake newFood = Option.some sp) :
    handleFoodCollision env newSnake score bs = Option.some
      { newFood := newFood
        newScore := score + REGULAR_EGG_CONFIG.minPoints
        snakeGrew := REGULAR_EGG_CONFIG.growsSnake
        newBonusState :=
          { activeBonuses := bs.activeBonuses ++ sp
            eggsEatenSince := incrementEggsEaten getSpawnableBonuses bs.eggsEatenSince
            nextSpawnAt := bs.nextSpawnAt } } := by
  unfold handleFoodCollision
  rw [hpos]
  dsimp only
  rw [hsp]

/-- A fresh started session satisfies the compound invariant. -/
lemma inv_initStep (W H : ℤ) (init : InitRand) (s : GameState)
    (hv : ValidInit init)
    (hinit : createInitialState W H init = Option.some s) :
    Inv (startGame s) := by
  unfold createInitialState at hinit
  dsimp only at hinit
  rw [Option.map_eq_some'] at hinit
  obtain ⟨food, hfoodp, hrec⟩ := hinit
  subst hrec
  have heggs : lookupD ((createInitialBonusState init.thresholdRolls).eggsEatenSince)
      "shrink-egg" = 0 := by
    show lookupD (getSpawnableBonuses.map (fun c => (c.type, 0))) "shrink-egg" = 0
    decide
  have hlk := initNextSpawn_lookup init.thresholdRolls
  unfold startGame Inv
  dsimp only
  refine ⟨by simp, ?_, ?_, ?_, ?_, ?_⟩
  · intro b hb
    exact absurd hb (List.not_mem_nil b)
  · simp [createInitialBonusState]
  · rw [heggs]
    simp
  · rw [hlk.2.1]
    have hmem := getRandomSpawnThreshold_mem (init.thresholdRolls 1) SHRINK_EGG_CONFIG
      (hv 1) (by decide)
    have h10 : SHRINK_EGG_CONFIG.minSpawnAfterEggs = 10 := by decide
    omega
  · intro h
    exact absurd h (List.not_mem_nil _)

/-- Every reachable session state satisfies the compound invariant. -/
lemma reachable_inv (W H : ℤ) (s : GameState) (h : Reachable W H s) : Inv s := by
  induction h with
  | start init s0 hv hinit => exact inv_initStep W H init s0 hv hinit
  | tickStep s0 env d s1 hr hv htick ih => exact inv_tickStep W H env d s0 s1 hv ih htick
  | timerStep s0 rolls hr hv hrun ih => exact inv_timerStep rolls s0 hv ih

/-- Initial randomness of the concrete 20×20 session: the food lands on
`(11, 10)` and every threshold roll is `0`. -/
def c1InitRand : InitRand :=
  { foodDraws := fun _ => ⟨11, 10⟩
    thresholdRolls := fun _ => 0
    fuel := 1 }

/-- The fresh (not yet started) 20×20 session state. -/
def c1BaseState : GameState :=
  { snake := [⟨10, 10⟩, ⟨9, 10⟩, ⟨8, 10⟩]
    food := ⟨11, 10⟩
    bonusState := createInitialBonusState (fun _ => 0)
    direction := Direction.RIGHT
    nextDirection := Direction.RIGHT
    score := 0
    isRunning := false
    isGameOver := false }

/-- The started 20×20 session state. -/
def c1StartState : GameState := startGame c1BaseState

/-- C1: in every session state reachable from a started fresh session by
any sequence of ticks, bonus-timer advances and bonus collections, the
snake'''s length is at least 3 — in particular no shrink effect ever takes
it below the configured floor of 3. -/
theorem snake_length_invariant (W H : ℤ) (s : GameState)
    (h : Reachable W H s) : 3 ≤ s.snake.length :=
  (reachable_inv W H s h).1

/-- C1 witness: the freshly started 20×20 session is reachable and its
snake already has length 3. -/
theorem snake_length_invariant_witness : 3 ≤ c1StartState.snake.length :=
  snake_length_invariant 20 20 c1StartState
    (Reachable.start c1InitRand c1BaseState
      (fun i => (by constructor <;> norm_num : ValidRoll (0 : ℚ))) rfl)

/-- Tick randomness of the Scenario A witness: the relocated food lands on
`(0, 0)` and every roll is `0`. -/
def c5Env : TickRand :=
  { foodDraws := fun _ => ⟨0, 0⟩
    spawnRands := fun _ => { roll := 0, posDraws := fun _ => ⟨0, 0⟩, pointsRoll := 0 }
    respawnRoll := 0
    fuel := 1 }

/-- The post-move snake of the Scenario A witness. -/
def c5NewSnake : List Position := [⟨11, 10⟩, ⟨10, 10⟩, ⟨9, 10⟩, ⟨8, 10⟩]

/-- The bonus state against which the Scenario A spawn pass runs: every
counter bumped to 1 against thresholds of at least 5. -/
def c5SpawnState : BonusManagerState :=
  { activeBonuses := (createInitialBonusState (fun _ => (0 : ℚ))).activeBonuses
    eggsEatenSince :=
      incrementEggsEaten getSpawnableBonuses
        (createInitialBonusState (fun _ => (0 : ℚ))).eggsEatenSince
    nextSpawnAt := (createInitialBonusState (fun _ => (0 : ℚ))).nextSpawnAt }

/-- The food-collision result of the Scenario A witness tick. -/
def c5Res : FoodCollisionResult :=
  { newFood := ⟨0, 0⟩
    newScore := 0 + REGULAR_EGG_CONFIG.minPoints
    snakeGrew := REGULAR_EGG_CONFIG.growsSnake
    newBonusState :=
      { activeBonuses := (createInitialBonusState (fun _ => (0 : ℚ))).activeBonuses ++ []
        eggsEatenSince := incrementEggsEaten getSpawnableBonuses
          (createInitialBonusState (fun _ => (0 : ℚ))).eggsEatenSince
        nextSpawnAt := (createInitialBonusState (fun _ => (0 : ℚ))).nextSpawnAt } }

/-- The state after the Scenario A witness tick. -/
def c5Tick : GameState :=
  { snake := [⟨11, 10⟩, ⟨10, 10⟩, ⟨9, 10⟩, ⟨8, 10⟩]
    food := ⟨0, 0⟩
    bonusState := c5Res.newBonusState
    direction := Direction.RIGHT
    nextDirection := Direction.RIGHT
    score := 1
    isRunning := true
    isGameOver := false }

/-- C5: on a reachable running state whose buffered move lands the head
exactly on the regular collectible without a fatal collision, a
successful tick adds exactly the regular egg'''s fixed 1 point, grows the
snake by exactly one segment (the tail is not popped), and relocates the
food to a cell occupied by no snake segment and no active bonus. -/
theorem tick_food_growth_spec (W H : ℤ) (env : TickRand) (d : Direction)
    (s s2 : GameState) (hre : Reachable W H s)
    (h0 : Position) (rest : List Position) (hsnake : s.snake = h0 :: rest)
    (hcol : checkCollision W H
      ⟨h0.x + (DIRECTIONS d).x, h0.y + (DIRECTIONS d).y⟩ s.snake = false)
    (hfood : h0.x + (DIRECTIONS d).x = s.food.x ∧ h0.y + (DIRECTIONS d).y = s.food.y)
    (hrun : s.isRunning = true) (hover : s.isGameOver = false)
    (htick : tick W H env d s = Option.some s2) :
    s2.score = s.score + 1 ∧
    s2.snake.length = s.snake.length + 1 ∧
    s2.food ∉ s2.snake ∧
    s2.food ∉ getBonusPositions s2.bonusState.activeBonuses := by
  have hfd := (reachable_inv W H s hre).2.2.2.2.2
  rcases hh : handleFoodCollision env
      ((⟨h0.x + (DIRECTIONS d).x, h0.y + (DIRECTIONS d).y⟩ : Position)
        :: s.snake) s.score s.bonusState with _ | res
  · exfalso
    have := tick_food_none W H env d s h0 rest hrun hover hsnake hcol hfood hh
    rw [htick] at this
    exact absurd this (by simp)
  · obtain ⟨hsc, hgrew, hnf1, hnf2, hegg, hnxt, sp, hsp, hact⟩ :=
      handleFoodCollision_spec hh
    have hfoodeq : (⟨h0.x + (DIRECTIONS d).x, h0.y + (DIRECTIONS d).y⟩ : Position) =
        s.food := by
      have hself : s.food = ⟨s.food.x, s.food.y⟩ := rfl
      rw [hself]
      simp only [Position.mk.injEq]
      exact ⟨hfood.1, hfood.2⟩
    have hnbonus : findCollidedBonus res.newBonusState.activeBonuses
        ⟨h0.x + (DIRECTIONS d).x, h0.y + (DIRECTIONS d).y⟩ = Option.none := by
      apply findCollidedBonusGo_none
      intro bb hbb
      rw [hact] at hbb
      rcases List.mem_append.mp hbb with hborig | hbsp
      · intro hxy
        have hbp : bb.position =
            (⟨h0.x + (DIRECTIONS d).x, h0.y + (DIRECTIONS d).y⟩ : Position) := by
          have hself : bb.position = ⟨bb.position.x, bb.position.y⟩ := rfl
          rw [hself]
          simp only [Position.mk.injEq]
          exact ⟨hxy.1, hxy.2⟩
        exact hfd (List.mem_map.mpr ⟨bb, hborig, by rw [hbp, hfoodeq]⟩)
      · obtain ⟨j, config, hj, hbt, hcond, hposx, htm⟩ :=
          trySpawnGo_mem_spec env.spawnRands env.fuel _ _ _
            getSpawnableBonuses 0 sp hsp bb hbsp
        intro hxy
        have hbp : bb.position =
            (⟨h0.x + (DIRECTIONS d).x, h0.y + (DIRECTIONS d).y⟩ : Position) := by
          have hself : bb.position = ⟨bb.position.x, bb.position.y⟩ := rfl
          rw [hself]
          simp only [Position.mk.injEq]
          exact ⟨hxy.1, hxy.2⟩
        exact hposx (List.mem_append_left _ (List.mem_append_left _
          (by rw [hbp]; exact List.mem_cons_self _ _)))
    have hred := tick_food_eq W H env d s h0 rest res hrun hover hsnake
      hcol hfood hh hnbonus hgrew
    rw [htick] at hred
    have hseq := Option.some.inj hred
    subst hseq
    refine ⟨hsc, ?_, hnf1, ?_⟩
    · show ((⟨h0.x + (DIRECTIONS d).x, h0.y + (DIRECTIONS d).y⟩ : Position)
        :: s.snake).length = s.snake.length + 1
      simp
    · show res.newFood ∉ getBonusPositions res.newBonusState.activeBonuses
      rw [hact]
      intro hmem
      obtain ⟨bb, hbb, hbpos⟩ := List.mem_map.mp hmem
      rcases List.mem_append.mp hbb with hborig | hbsp
      · exact hnf2 (List.mem_map.mpr ⟨bb, hborig, hbpos⟩)
      · obtain ⟨j, config, hj, hbt2, hcond, hposx, htm⟩ :=
          trySpawnGo_mem_spec env.spawnRands env.fuel _ _ _
            getSpawnableBonuses 0 sp hsp bb hbsp
        exact hposx (List.mem_append_left _ (List.mem_append_right _
          (by rw [hbpos]; exact List.mem_cons_self _ _)))

/-- C5 witness: Scenario A on the reachable 20×20 start state — the snake
at `[(10,10),(9,10),(8,10)]` heading right eats the collectible at
`(11,10)`; the tick yields score 1, length 4, and a food cell off the
snake and off every active bonus. -/
theorem tick_food_growth_spec_witness :
    c5Tick.score = c1StartState.score + 1 ∧
    c5Tick.snake.length = c1StartState.snake.length + 1 ∧
    c5Tick.food ∉ c5Tick.snake ∧
    c5Tick.food ∉ getBonusPositions c5Tick.bonusState.activeBonuses := by
  have hv0 : ValidRoll (0 : ℚ) := by constructor <;> norm_num
  have hpos0 : getRandomPosition c5Env.fuel c5Env.foodDraws
      (c5NewSnake ++ getBonusPositions
        (createInitialBonusState (fun _ => (0 : ℚ))).activeBonuses) =
      Option.some ⟨0, 0⟩ := by decide
  have hlk := initNextSpawn_lookup (fun _ => (0 : ℚ))
  have hsp0 : trySpawnBonuses c5Env.spawnRands c5Env.fuel getSpawnableBonuses
      c5SpawnState c5NewSnake ⟨0, 0⟩ = Option.some [] := by
    apply trySpawnGo_nil
    intro c hc j
    rw [getSpawnableBonuses_eq] at hc
    simp only [List.mem_cons, List.not_mem_nil, or_false] at hc
    rcases hc with rfl | rfl | rfl | rfl
    · intro hcond
      obtain ⟨hge, -, -⟩ := hcond
      dsimp only [c5SpawnState] at hge
      have h1 : lookupD (incrementEggsEaten getSpawnableBonuses
          (createInitialBonusState (fun _ => (0 : ℚ))).eggsEatenSince)
          DRAGON_EGG_CONFIG.type = 1 := by decide
      rw [h1] at hge
      have hct : DRAGON_EGG_CONFIG.type = "dragon-egg" := rfl
      rw [hct, hlk.1] at hge
      have hmem := getRandomSpawnThreshold_mem 0 DRAGON_EGG_CONFIG hv0 (by decide)
      have hmin : DRAGON_EGG_CONFIG.minSpawnAfterEggs = 5 := by decide
      omega
    · intro hcond
      obtain ⟨hge, -, -⟩ := hcond
      dsimp only [c5SpawnState] at hge
      have h1 : lookupD (incrementEggsEaten getSpawnableBonuses
          (createInitialBonusState (fun _ => (0 : ℚ))).eggsEatenSince)
          SHRINK_EGG_CONFIG.type = 1 := by decide
      rw [h1] at hge
      have hct : SHRINK_EGG_CONFIG.type = "shrink-egg" := rfl
      rw [hct, hlk.2.1] at hge
      have hmem := getRandomSpawnThreshold_mem 0 SHRINK_EGG_CONFIG hv0 (by decide)
      have hmin : SHRINK_EGG_CONFIG.minSpawnAfterEggs = 10 := by decide
      omega
    · intro hcond
      obtain ⟨hge, -, -⟩ := hcond
      dsimp only [c5SpawnState] at hge
      have h1 : lookupD (incrementEggsEaten getSpawnableBonuses
          (createInitialBonusState (fun _ => (0 : ℚ))).eggsEatenSince)
          GOLDEN_APPLE_CONFIG.type = 1 := by decide
      rw [h1] at hge
      have hct : GOLDEN_APPLE_CONFIG.type = "golden-apple" := rfl
      rw [hct, hlk.2.2.1] at hge
      have hmem := getRandomSpawnThreshold_mem 0 GOLDEN_APPLE_CONFIG hv0 (by decide)
      have hmin : GOLDEN_APPLE_CONFIG.minSpawnAfterEggs = 10 := by decide
      omega
    · intro hcond
      obtain ⟨hge, -, -⟩ := hcond
      dsimp only [c5SpawnState] at hge
      have h1 : lookupD (incrementEggsEaten getSpawnableBonuses
          (createInitialBonusState (fun _ => (0 : ℚ))).eggsEatenSince)
          CRYSTAL_GEM_CONFIG.type = 1 := by decide
      rw [h1] at hge
      have hct : CRYSTAL_GEM_CONFIG.type = "crystal-gem" := rfl
      rw [hct, hlk.2.2.2] at hge
      have hmem := getRandomSpawnThreshold_mem 0 CRYSTAL_GEM_CONFIG hv0 (by decide)
      have hmin : CRYSTAL_GEM_CONFIG.minSpawnAfterEggs = 20 := by decide
      omega
  have hh : handleFoodCollision c5Env c5NewSnake 0
      (createInitialBonusState (fun _ => (0 : ℚ))) = Option.some c5Res :=
    handleFoodCollision_eq c5Env c5NewSnake 0
      (createInitialBonusState (fun _ => (0 : ℚ))) ⟨0, 0⟩ [] hpos0 hsp0
  have hnb : findCollidedBonus c5Res.newBonusState.activeBonuses
      ⟨(⟨10, 10⟩ : Position).x + (DIRECTIONS Direction.RIGHT).x,
        (⟨10, 10⟩ : Position).y + (DIRECTIONS Direction.RIGHT).y⟩ =
      Option.none := by decide
  have htick : tick 20 20 c5Env Direction.RIGHT c1StartState =
      Option.some c5Tick :=
    tick_food_eq 20 20 c5Env Direction.RIGHT c1StartState ⟨10, 10⟩
      [⟨9, 10⟩, ⟨8, 10⟩] c5Res rfl rfl rfl (by decide) (by decide) hh hnb rfl
  exact tick_food_growth_spec 20 20 c5Env Direction.RIGHT c1StartState c5Tick
    (Reachable.start c1InitRand c1BaseState
      (fun i => (by constructor <;> norm_num : ValidRoll (0 : ℚ))) rfl)
    ⟨10, 10⟩ [⟨9, 10⟩, ⟨8, 10⟩] rfl (by decide) (by decide) rfl rfl htick

end SnakeGame
